import Mathlib

/-
Shallow embedding of the CrOS EC flash-update core (src/cros_ec.c).

The command channel (ec_command) is modelled by an oracle structure `Chan`
holding the status/response each kind of command receives; the module-level
mutable globals of the C file (need_2nd_pass, rwsig_enabled, fwcopy, the
cached feature flags, and the session pointer cros_ec_priv) are gathered in a
`State` record threaded through every operation.  Each operation returns its
C return value, the updated state, and the list of transport calls it issued.
Unsigned machine arithmetic is modelled on Nat with explicit reduction
modulo 2^32 (or 2^64 for size_t) at the points where the C arithmetic can
wrap.
-/

namespace CrosEc

/-- 2^32, the wrap modulus of the 32-bit unsigned arithmetic in the source. -/
def U32 : Nat := 4294967296

/-- 2^64, the wrap modulus of size_t arithmetic in the source. -/
def U64 : Nat := 18446744073709551616

/-- Modelled from the spec: the distinguished access-denied result returned
by the erase and write engines (spi.h, which defines it, is not among the
sources; the spec calls it the Denied result, distinct from raw transport
statuses). -/
def SPI_ACCESS_DENIED : Int := -7

def EC_RES_SUCCESS : Int := 0

/-- Modelled from the spec: protocol status code for a device-side denial
(ec_commands.h is not among the sources). -/
def EC_RES_ACCESS_DENIED : Int := 4

/-- Modelled from the spec: protocol status code for a busy device. -/
def EC_RES_BUSY : Int := 16

def EC_IMAGE_UNKNOWN : Nat := 0

def EC_IMAGE_RO : Nat := 1

def EC_IMAGE_RW : Nat := 2

/-- Modelled from the spec: reboot-command parameters (ec_commands.h is not
among the sources).  The source relies on EC_REBOOT_JUMP_RO and
EC_REBOOT_JUMP_RW being numerically equal to EC_IMAGE_RO and EC_IMAGE_RW. -/
def EC_REBOOT_JUMP_RO : Nat := 1

def EC_REBOOT_JUMP_RW : Nat := 2

def EC_REBOOT_COLD : Nat := 4

def FLASH_ERASE_SECTOR : Nat := 0

def FLASH_ERASE_SECTOR_ASYNC : Nat := 1

def FLASH_ERASE_GET_RESULT : Nat := 2

/-- Modelled from the spec: feature code for signed-firmware verification
(ec_commands.h is not among the sources; only distinctness and word/bit
position matter). -/
def EC_FEATURE_RWSIG : Nat := 30

/-- Modelled from the spec: feature code for the execute-elsewhere
(execute-in-RAM) capability. -/
def EC_FEATURE_EXEC_IN_RAM : Nat := 34

/-- Modelled from the spec: command id of the flash-erase command. -/
def EC_CMD_FLASH_ERASE : Nat := 19

/-- For larger regions the async version of FLASH_ERASE is used (16 KiB). -/
def FLASH_SMALL_REGION_THRESHOLD : Nat := 16384

/-- Modelled from the spec: the mask EC_FLASH_PROTECT_RO_NOW |
EC_FLASH_PROTECT_ALL_NOW tested by cros_ec_wp_is_enabled. -/
def EC_FLASH_PROTECT_NOW_MASK : Nat := 6

/-- A flash region as reported by the device (offset/size). -/
structure Region where
  offset : Nat
  size : Nat
deriving DecidableEq

/-- One entry of the fwcopy table: the range of a firmware copy inside the
image file, with .flags re-used as the fresh marker (1 = new). -/
structure FmapArea where
  offset : Nat
  size : Nat
  flags : Nat
deriving DecidableEq

/-- A named area of the firmware map of the candidate image, as produced by
the (external) fmap parser. -/
structure FmapNamed where
  name : String
  offset : Nat
  size : Nat
deriving DecidableEq

/-- The session record cros_ec_priv points to. -/
structure Priv where
  detected : Bool
  current_image : Nat
  region : Nat → Region
  ideal_write_size : Nat

/-- Oracle for the command channel: the status (and response payload) each
command receives.  Responses that can differ between repeated issues of the
same command are indexed by the per-kind call number.  The image field is
device-side state: a successful reboot-to-copy updates it. -/
structure Chan where
  image : Nat
  getVersionRc : Int
  featuresRc : Int
  featuresFlags0 : Nat
  featuresFlags1 : Nat
  cmdVersionsRc : Nat → Int
  cmdVersionsMask : Nat → Nat
  eraseRc : Int
  eraseGetResultRc : Nat → Int
  writeRc : Nat → Int
  rebootRc : Int
  wpRc : Int
  wpFlags : Nat
  wpDisableOk : Bool
  registerShutdownRc : Int

/-- The module state of cros_ec.c: the channel, the session pointer (privNull
models cros_ec_priv == NULL), and the file-scope globals. -/
structure State where
  chan : Chan
  privNull : Bool
  priv : Priv
  need_2nd_pass : Nat
  rwsig_enabled : Nat
  fwcopy : Nat → FmapArea
  featCache0 : Nat
  featCache1 : Nat

/-- Descriptor of one transport call, recorded in the trace. -/
inductive Call where
  | getVersion
  | getFeatures
  | getCmdVersions (cmd : Nat)
  | flashErase (version : Int) (subcmd : Option Nat) (offset size : Nat)
  | flashWrite (offset : Nat) (payload : List Nat)
  | rebootEc (cmd : Nat)
  | rwsigAction
  | flashProtect
deriving DecidableEq

/-- The C expression !!(r.flags[feature / 32] & (1 << (feature % 32))). -/
def featBit (f0 f1 feature : Nat) : Int :=
  let word := if feature / 32 = 0 then f0 else f1
  if word.testBit (feature % 32) then 1 else 0

/-- ec_check_features: query (and cache) the device feature bits.  The static
response structure r is the featCache pair of the state; the command is only
issued while the first cached word is zero. -/
def ec_check_features (st : State) (feature : Nat) : Int × State × List Call :=
  if 64 ≤ feature then (-1, st, [])
  else if st.featCache0 = 0 then
    if st.chan.featuresRc < 0 then (st.chan.featuresRc, st, [Call.getFeatures])
    else
      (featBit st.chan.featuresFlags0 st.chan.featuresFlags1 feature,
       { st with featCache0 := st.chan.featuresFlags0,
                 featCache1 := st.chan.featuresFlags1 },
       [Call.getFeatures])
  else (featBit st.featCache0 st.featCache1 feature, st, [])

/-- in_current_image: whether [addr, addr+len) touches the region of the
copy the session believes is executing (with the unsigned wraparound of the
two minus-one computations). -/
def in_current_image (st : State) (addr len : Nat) : Bool :=
  let r := st.priv.region st.priv.current_image
  if (addr + len + (U32 - 1)) % U32 < r.offset ∨
      (r.offset + r.size + (U32 - 1)) % U32 < addr then false
  else true

/-- The overlap test of cros_ec_invalidate_copy for a single fwcopy entry:
mark the copy old (flags = 0) when the given range touches it. -/
def invalidateArea (addr len : Nat) (fw : FmapArea) : FmapArea :=
  if (fw.offset ≤ addr ∧ addr < (fw.offset + fw.size) % U32) ∨
      (addr ≤ fw.offset ∧ fw.offset < (addr + len) % U32) then
    { fw with flags := 0 }
  else fw

/-- cros_ec_invalidate_copy: mark every fwcopy entry (indices 1..3) whose
range the given range touches as old. -/
def cros_ec_invalidate_copy (addr len : Nat) (fw : Nat → FmapArea) : Nat → FmapArea :=
  fun i => if 1 ≤ i ∧ i < 4 then invalidateArea addr len (fw i) else fw i

/-- ec_get_cmd_versions: version mask of a command; copied from the response
only when the status is non-negative. -/
def ec_get_cmd_versions (st : State) (cmd : Nat) : Int × Nat × List Call :=
  let rc := st.chan.cmdVersionsRc cmd
  if rc < 0 then (rc, 0, [Call.getCmdVersions cmd])
  else (rc, st.chan.cmdVersionsMask cmd, [Call.getCmdVersions cmd])

/-- Scan for the highest set bit among bits k..0. -/
def topBitAux (mask : Nat) : Nat → Int
  | 0 => if mask.testBit 0 then 0 else -1
  | k + 1 => if mask.testBit (k + 1) then Int.ofNat (k + 1) else topBitAux mask k

/-- The C expression 31 - __builtin_clz(mask) for a 32-bit mask: the index of
its highest set bit.  For mask = 0 the builtin is undefined; we take the
common hardware value clz 0 = 32, giving -1. -/
def highestBit (mask : Nat) : Int := topBitAux mask 31

/-- The end_flash_erase label: a positive status (a retried command) is
normalised to -EC_RES_SUCCESS = 0. -/
def end_flash_erase (rc : Int) : Int := if 0 < rc then 0 else rc

/-- The async-erase poll loop: up to fuel further polls while the running
status is negative.  Returns the final status and the number of polls
issued.  The loop of the source runs with fuel = 10000000/500000 = 20. -/
def erasePoll (ch : Chan) (j fuel : Nat) (rc : Int) : Int × Nat :=
  match fuel with
  | 0 => (rc, 0)
  | f + 1 =>
    if rc < 0 then
      let p := erasePoll ch (j + 1) f (ch.eraseGetResultRc j)
      (p.1, p.2 + 1)
    else (rc, 0)

/-- cros_ec_block_erase. -/
def cros_ec_block_erase (st0 : State) (blockaddr len : Nat) : Int × State × List Call :=
  let fr := ec_check_features st0 EC_FEATURE_EXEC_IN_RAM
  let st1 := fr.2.1
  let t1 := fr.2.2
  if fr.1 ≤ 0 ∧ in_current_image st1 blockaddr len then
    (SPI_ACCESS_DENIED,
     { st1 with fwcopy := cros_ec_invalidate_copy blockaddr len st1.fwcopy,
                need_2nd_pass := 1 }, t1)
  else
    let gv := ec_get_cmd_versions st1 EC_CMD_FLASH_ERASE
    let t2 := t1 ++ gv.2.2
    if gv.1 < 0 then (0, st1, t2)
    else
      let cmd_version := highestBit gv.2.1
      if cmd_version = 0 then
        let rc := st1.chan.eraseRc
        let t3 := t2 ++ [Call.flashErase 0 none blockaddr len]
        if rc = -EC_RES_ACCESS_DENIED then
          (SPI_ACCESS_DENIED,
           { st1 with fwcopy := cros_ec_invalidate_copy blockaddr len st1.fwcopy,
                      need_2nd_pass := 1 }, t3)
        else if rc < 0 then (rc, st1, t3)
        else (end_flash_erase rc, st1, t3)
      else
        let subcmd := if FLASH_SMALL_REGION_THRESHOLD ≤ len then FLASH_ERASE_SECTOR_ASYNC
          else FLASH_ERASE_SECTOR
        let rc := st1.chan.eraseRc
        let t3 := t2 ++ [Call.flashErase cmd_version (some subcmd) blockaddr len]
        if rc = -EC_RES_ACCESS_DENIED then
          (SPI_ACCESS_DENIED,
           { st1 with fwcopy := cros_ec_invalidate_copy blockaddr len st1.fwcopy,
                      need_2nd_pass := 1 }, t3)
        else if rc ≠ 0 then (rc, st1, t3)
        else if len < FLASH_SMALL_REGION_THRESHOLD then (end_flash_erase 0, st1, t3)
        else
          let p := erasePoll st1.chan 0 20 (-EC_RES_BUSY)
          let t4 := t3 ++ List.replicate p.2
            (Call.flashErase cmd_version (some FLASH_ERASE_GET_RESULT) blockaddr len)
          if p.1 < 0 then (p.1, st1, t4) else (end_flash_erase p.1, st1, t4)

/-- The chunk size of cros_ec_write: min(max_data_write - sizeof(header),
ideal_write_size), with the size_t subtraction wraparound and the final
truncation to unsigned int of the C code. -/
def chunkSize (maxDataWrite ideal : Nat) : Nat :=
  (min ((maxDataWrite + (U64 - 8)) % U64) ideal) % U32

/-- The per-chunk loop of cros_ec_write.  fuel is an upper bound on the
number of remaining iterations; since every iteration advances i by
written ≥ 1 (the chunk size is positive whenever the loop is reached),
fuel = buf.length makes the fuel bound unreachable and the function agree
with the C loop. -/
def writeLoop (st : State) (c : Nat) (buf : List Nat) (addr : Nat) :
    Nat → Nat → Nat → Int × State × List Call
  | _, _, 0 => (0, st, [])
  | i, j, fuel + 1 =>
    if i < buf.length then
      let written := min (buf.length - i) c
      let fr := ec_check_features st EC_FEATURE_EXEC_IN_RAM
      let st1 := fr.2.1
      let t1 := fr.2.2
      if fr.1 ≤ 0 ∧ in_current_image st1 ((addr + i) % U32) written then
        (SPI_ACCESS_DENIED,
         { st1 with fwcopy := cros_ec_invalidate_copy addr buf.length st1.fwcopy,
                    need_2nd_pass := 1 }, t1)
      else
        let payload := (buf.drop i).take written
        let rc := st1.chan.writeRc j
        let t2 := t1 ++ [Call.flashWrite ((addr + i) % U32) payload]
        if rc = -EC_RES_ACCESS_DENIED then
          (SPI_ACCESS_DENIED,
           { st1 with fwcopy := cros_ec_invalidate_copy addr buf.length st1.fwcopy,
                      need_2nd_pass := 1 }, t2)
        else if rc < 0 then (rc, st1, t2)
        else
          let r := writeLoop st1 c buf addr (i + written) (j + 1) fuel
          (r.1, r.2.1, t2 ++ r.2.2)
    else (0, st, [])

/-- cros_ec_write.  none models the abort of assert(real_write_size > 0). -/
def cros_ec_write (st : State) (maxDataWrite : Nat) (buf : List Nat) (addr : Nat) :
    Option (Int × State × List Call) :=
  let c := chunkSize maxDataWrite st.priv.ideal_write_size
  if c = 0 then none
  else some (writeLoop st c buf addr 0 0 buf.length)

/-- cros_ec_get_current_image. -/
def cros_ec_get_current_image (st : State) : Int × List Call :=
  if st.chan.getVersionRc < 0 then (st.chan.getVersionRc, [Call.getVersion])
  else if st.chan.image = EC_IMAGE_UNKNOWN then (-1, [Call.getVersion])
  else (Int.ofNat st.chan.image, [Call.getVersion])

/-- cros_ec_jump_copy.  A successful reboot leaves the device reporting the
resolved target afterwards (the conforming-device behaviour the source and
spec assume of the settle delay); the result of the RWSIG abort command is
ignored, as in the source. -/
def cros_ec_jump_copy (st : State) (target : Nat) : Int × State × List Call :=
  let gc := cros_ec_get_current_image st
  let ci := gc.1
  let t1 := gc.2
  if ci < 0 then (1, st, t1)
  else if ci = Int.ofNat target then (0, st, t1)
  else
    let res : Option (Nat × Nat) :=
      if target = EC_IMAGE_RO then
        some (if st.rwsig_enabled ≠ 0 then EC_REBOOT_COLD else EC_REBOOT_JUMP_RO, target)
      else if target = EC_IMAGE_RW then
        some (EC_REBOOT_JUMP_RW, target)
      else if (st.fwcopy EC_IMAGE_RO).flags ≠ 0 then some (EC_REBOOT_JUMP_RO, EC_IMAGE_RO)
      else if (st.fwcopy EC_IMAGE_RW).flags ≠ 0 then some (EC_REBOOT_JUMP_RW, EC_IMAGE_RW)
      else none
    match res with
    | none => (1, st, t1)
    | some pt =>
      if ci = Int.ofNat pt.1 then
        (0, { st with priv := { st.priv with current_image := pt.2 } }, t1)
      else
        let rc := st.chan.rebootRc
        let t2 := t1 ++ [Call.rebootEc pt.1]
        if rc < 0 then (rc, st, t2)
        else
          let st2 := { st with chan := { st.chan with image := pt.2 } }
          let t3 := if pt.2 = EC_IMAGE_RO ∧ st.rwsig_enabled ≠ 0 then
              t2 ++ [Call.rwsigAction]
            else t2
          (EC_RES_SUCCESS,
           { st2 with priv := { st2.priv with current_image := pt.2 } }, t3)

/-- cros_ec_need_2nd_pass. -/
def cros_ec_need_2nd_pass (st : State) : Int × State × List Call :=
  if st.privNull = true ∨ st.priv.detected = false then (0, st, [])
  else if st.need_2nd_pass = 0 then (0, st, [])
  else
    let fr := ec_check_features st EC_FEATURE_EXEC_IN_RAM
    if 0 < fr.1 then (1, fr.2.1, fr.2.2)
    else
      let j := cros_ec_jump_copy fr.2.1 EC_IMAGE_UNKNOWN
      if j.1 ≠ 0 then (-1, j.2.1, fr.2.2 ++ j.2.2)
      else (1, j.2.1, fr.2.2 ++ j.2.2)

/-- cros_ec_cold_reboot (the device-side image change after a cold reboot is
not modelled; no claim depends on it). -/
def cros_ec_cold_reboot (st : State) : Int × List Call :=
  (st.chan.rebootRc, [Call.rebootEc EC_REBOOT_COLD])

/-- cros_ec_finish. -/
def cros_ec_finish (st : State) : Int × State × List Call :=
  if st.privNull = true ∨ st.priv.detected = false then (0, st, [])
  else if st.rwsig_enabled ≠ 0 then
    let cr := cros_ec_cold_reboot st
    (cr.1, st, cr.2)
  else (0, st, [])

/-- cros_ec_wp_is_enabled (sizeof(struct ec_response_flash_protect) = 12). -/
def cros_ec_wp_is_enabled (st : State) : Int × List Call :=
  if st.chan.wpRc < 0 then (-1, [Call.flashProtect])
  else if st.chan.wpRc < 12 then (-1, [Call.flashProtect])
  else if st.chan.wpFlags &&& EC_FLASH_PROTECT_NOW_MASK ≠ 0 then (1, [Call.flashProtect])
  else (0, [Call.flashProtect])

/-- The sections[] table of names matched against FMAP area names. -/
def sectionName (i : Nat) : String :=
  if i = 1 then "EC_RO" else if i = 2 then "EC_RW" else "UNKNOWN SECTION"

/-- One iteration of the FMAP lookup of cros_ec_prepare: copy a parsed area
over every fwcopy slot (RO, RW) whose section name it carries and mark the
slot new. -/
def applyArea (fa : FmapNamed) (fw : Nat → FmapArea) : Nat → FmapArea :=
  fun i => if (1 ≤ i ∧ i < 3) ∧ sectionName i = fa.name then
      { offset := fa.offset, size := fa.size, flags := 1 }
    else fw i

/-- The FMAP lookup loop of cros_ec_prepare over all parsed areas. -/
def applyFmap : List FmapNamed → (Nat → FmapArea) → Nat → FmapArea
  | [], fw => fw
  | fa :: rest, fw => applyFmap rest (applyArea fa fw)

/-- cros_ec_prepare.  Modelled from the spec where the sources end: the fmap
parser (fmap_read_from_buffer) is the external Firmware-Map Reader, whose
outcome is the fmapAreas parameter (none = parse failure, which the source
treats as non-fatal); the write-protect disable helpers (flashrom_wp_*) and
register_shutdown are external collaborators summarised by the channel
fields wpDisableOk and registerShutdownRc. -/
def cros_ec_prepare (st0 : State) (fmapAreas : Option (List FmapNamed)) :
    Int × State × List Call :=
  if st0.privNull = true ∨ st0.priv.detected = false then (0, st0, [])
  else
    let fr := ec_check_features st0 EC_FEATURE_RWSIG
    let st1 := if 0 < fr.1 then { fr.2.1 with rwsig_enabled := 1 } else fr.2.1
    let t1 := fr.2.2
    let wp := cros_ec_wp_is_enabled st1
    let t2 := t1 ++ wp.2
    if wp.1 < 0 then (1, st1, t2)
    else if wp.1 = 1 ∧ st1.chan.wpDisableOk ∧ st1.chan.registerShutdownRc ≠ 0 then
      (1, st1, t2)
    else
      let st2 := match fmapAreas with
        | none => st1
        | some areas => { st1 with fwcopy := applyFmap areas st1.fwcopy }
      let f2 := ec_check_features st2 EC_FEATURE_EXEC_IN_RAM
      let t3 := t2 ++ f2.2.2
      if 0 < f2.1 then (0, f2.2.1, t3)
      else
        let jc := cros_ec_jump_copy f2.2.1 EC_IMAGE_RO
        (jc.1, jc.2.1, t3 ++ jc.2.2)

/-- The payloads of the FLASH_WRITE calls of a trace, in order. -/
def writePayloads : List Call → List (List Nat)
  | [] => []
  | Call.flashWrite _ p :: rest => p :: writePayloads rest
  | _ :: rest => writePayloads rest

/-- Whether a call is a FLASH_ERASE_GET_RESULT poll. -/
def isPollCall : Call → Bool
  | Call.flashErase _ (some sub) _ _ => sub == FLASH_ERASE_GET_RESULT
  | _ => false

/-- Number of get-result polls in a trace. -/
def pollCount (tr : List Call) : Nat := (tr.filter isPollCall).length

/-- An erase/write/jump call of the caller-driven update loop, for stating
the pending-retry invariant over call sequences. -/
inductive Op where
  | erase (blockaddr len : Nat)
  | write (maxDataWrite : Nat) (buf : List Nat) (addr : Nat)
  | jump (target : Nat)

/-- Execute one operation: its C return value and the state after.  The
aborted-process case of cros_ec_write (zero chunk size) is modelled as a
plain error with the state unchanged; no sequence used below reaches it. -/
def runOp (st : State) : Op → Int × State
  | .erase a l =>
    let r := cros_ec_block_erase st a l
    (r.1, r.2.1)
  | .write m b a =>
    let r := (cros_ec_write st m b a).getD (-1, st, [])
    (r.1, r.2.1)
  | .jump t =>
    let r := cros_ec_jump_copy st t
    (r.1, r.2.1)

/-- Run a sequence of operations. -/
def runOps (st : State) : List Op → State
  | [] => st
  | op :: rest => runOps (runOp st op).2 rest

/-- Whether an operation is an erase/write call that returns Denied. -/
def isDenial (st : State) (op : Op) : Bool :=
  match op with
  | .jump _ => false
  | _ => (runOp st op).1 == SPI_ACCESS_DENIED

/-- Whether an operation is a jump call that returns success. -/
def isSuccessfulJump (st : State) (op : Op) : Bool :=
  match op with
  | .jump _ => (runOp st op).1 == 0
  | _ => false

/-- Whether, at the end of the sequence, at least one erase/write call since
the last successful jump returned Denied (d is the value at the start). -/
def deniedSinceLastJump (st : State) (d : Bool) : List Op → Bool
  | [] => d
  | op :: rest =>
    let d' := if isSuccessfulJump st op then false else if isDenial st op then true else d
    deniedSinceLastJump (runOp st op).2 d' rest

/-- Whether at least one erase/write call of the sequence returned Denied. -/
def anyDenied (st : State) : List Op → Bool
  | [] => false
  | op :: rest => isDenial st op || anyDenied (runOp st op).2 rest

/-- Channel oracles whose raw transport statuses never collide with the
distinguished SPI_ACCESS_DENIED value (the EC protocol returns negated
EC_RES codes and negated errno values; the collision would identify a raw
status with the Denied result by accident of encoding). -/
def benign (ch : Chan) : Prop :=
  ch.eraseRc ≠ SPI_ACCESS_DENIED ∧
  (∀ j, ch.eraseGetResultRc j ≠ SPI_ACCESS_DENIED) ∧
  (∀ j, ch.writeRc j ≠ SPI_ACCESS_DENIED)

/-- A baseline device session for concrete runs: device executing RW, RO
region [0, 50), RW region [100, 150), all commands succeeding. -/
def regBase : Nat → Region :=
  fun i => if i = 1 then ⟨0, 50⟩ else if i = 2 then ⟨100, 50⟩ else ⟨0, 0⟩

/-- A fwcopy table with both copies present and fresh. -/
def fwFresh : Nat → FmapArea :=
  fun i => if i = 1 then ⟨0, 50, 1⟩ else if i = 2 then ⟨100, 50, 1⟩ else ⟨0, 0, 0⟩

/-- Baseline channel: every command succeeds, the device lacks both RWSIG
and EXEC_IN_RAM (feature word 0 is 1 so the cache is considered filled
after one query), erase supports only version 0. -/
def chanBase : Chan where
  image := 2
  getVersionRc := 0
  featuresRc := 0
  featuresFlags0 := 1
  featuresFlags1 := 0
  cmdVersionsRc := fun _ => 0
  cmdVersionsMask := fun _ => 1
  eraseRc := 0
  eraseGetResultRc := fun _ => 0
  writeRc := fun _ => 0
  rebootRc := 0
  wpRc := 12
  wpFlags := 0
  wpDisableOk := true
  registerShutdownRc := 0

def privBase : Priv where
  detected := true
  current_image := 2
  region := regBase
  ideal_write_size := 8

def stBase : State where
  chan := chanBase
  privNull := false
  priv := privBase
  need_2nd_pass := 0
  rwsig_enabled := 0
  fwcopy := fwFresh
  featCache0 := 0
  featCache1 := 0

/-- C1 counterexample state: executing RW with region [100, 110), transport
failing every write chunk. -/
def stC1x : State :=
  { stBase with
    chan := { chanBase with writeRc := fun _ => -1 },
    priv := { privBase with
      region := fun i => if i = 2 then ⟨100, 10⟩ else ⟨0, 10⟩ } }

/-- C1 witness state for the write conjunct: executing RW with region
[100, 110); a write at 100 overlaps already in its first chunk. -/
def stC1w : State :=
  { stBase with
    priv := { privBase with
      region := fun i => if i = 2 then ⟨100, 10⟩ else ⟨0, 10⟩ } }

/-- C2 failing input: the GET_CMD_VERSIONS capability query fails with -3;
the device has EXEC_IN_RAM (feature word 1 bit 2) so no guard interferes. -/
def stC2x : State :=
  { stBase with chan := { chanBase with
      cmdVersionsRc := fun _ => -3, featuresFlags1 := 4 } }

/-- C3 counterexample initial state (the baseline: retry flag clear, both
copies fresh, device executing RW). -/
def stC3x : State := stBase

/-- C3 counterexample sequence: an erase of [100, 110) is denied (it
overlaps the executing RW copy), the jump to the newest copy succeeds
(to RO), then the same erase succeeds. -/
def opsC3x : List Op := [Op.erase 100 10, Op.jump EC_IMAGE_UNKNOWN, Op.erase 100 10]

/-- C5 witness state: executing RO with regions far away, so no write is
denied; ideal write size 8. -/
def stC5w : State :=
  { stBase with
    priv := { privBase with
      current_image := 1,
      region := fun i => if i = 1 then ⟨1000, 50⟩ else ⟨2000, 50⟩ } }

/-- C7/C8 witness channel: EXEC_IN_RAM supported (word 1, bit 2), erase
version mask 0b0010, device busy for exactly 3 polls then done. -/
def stC8w : State :=
  { stBase with chan := { chanBase with
      featuresFlags1 := 4,
      cmdVersionsMask := fun _ => 2,
      eraseGetResultRc := fun j => if j < 3 then -16 else 0 } }

/-- C8 witness channel for the timeout conjunct: the device never completes
the async erase. -/
def stC8x : State :=
  { stBase with chan := { chanBase with
      featuresFlags1 := 4,
      cmdVersionsMask := fun _ => 2,
      eraseGetResultRc := fun _ => -16 } }

/-- C9 state: empty fwcopy table before prepare. -/
def stC9x : State := { stBase with fwcopy := fun _ => ⟨0, 0, 0⟩ }

/-- C9 firmware map: both sections present in the candidate image. -/
def areasC9 : List FmapNamed := [⟨"EC_RO", 0, 50⟩, ⟨"EC_RW", 100, 50⟩]

/-- C10 witness state: no session attached. -/
def stC10w : State := { stBase with privNull := true }

/-- C4 witness state: no copy fresh. -/
def stC4n : State := { stBase with fwcopy := fun _ => ⟨0, 0, 0⟩ }

/-- C4 witness state: executing RO, only RW fresh. -/
def stC4c : State :=
  { stBase with
    chan := { chanBase with image := 1 },
    fwcopy := fun i => if i = 2 then ⟨100, 50, 1⟩ else ⟨0, 0, 0⟩ }

/-- C4 witness state: retry flag raised and no copy fresh. -/
def stC4d : State :=
  { stBase with need_2nd_pass := 1, fwcopy := fun _ => ⟨0, 0, 0⟩ }

/-! Frame and trace lemmas. -/

theorem ec_check_features_frame (st : State) (f : Nat) :
    (ec_check_features st f).2.1.chan = st.chan ∧
    (ec_check_features st f).2.1.priv = st.priv ∧
    (ec_check_features st f).2.1.fwcopy = st.fwcopy ∧
    (ec_check_features st f).2.1.need_2nd_pass = st.need_2nd_pass ∧
    (ec_check_features st f).2.1.rwsig_enabled = st.rwsig_enabled ∧
    (ec_check_features st f).2.1.privNull = st.privNull := by
  unfold ec_check_features
  repeat' split
  all_goals exact ⟨rfl, rfl, rfl, rfl, rfl, rfl⟩

theorem ec_check_features_trace (st : State) (f : Nat) :
    ∀ c ∈ (ec_check_features st f).2.2, c = Call.getFeatures := by
  unfold ec_check_features
  repeat' split
  all_goals simp

theorem in_current_image_congr {st st' : State} (h : st'.priv = st.priv) (a l : Nat) :
    in_current_image st' a l = in_current_image st a l := by
  unfold in_current_image
  rw [h]

theorem jump_frame (st : State) (t : Nat) :
    (cros_ec_jump_copy st t).2.1.fwcopy = st.fwcopy ∧
    (cros_ec_jump_copy st t).2.1.need_2nd_pass = st.need_2nd_pass ∧
    (cros_ec_jump_copy st t).2.1.privNull = st.privNull ∧
    (cros_ec_jump_copy st t).2.1.rwsig_enabled = st.rwsig_enabled ∧
    (cros_ec_jump_copy st t).2.1.chan.eraseRc = st.chan.eraseRc ∧
    (cros_ec_jump_copy st t).2.1.chan.eraseGetResultRc = st.chan.eraseGetResultRc ∧
    (cros_ec_jump_copy st t).2.1.chan.writeRc = st.chan.writeRc := by
  simp only [cros_ec_jump_copy, cros_ec_get_current_image]
  repeat' split
  all_goals exact ⟨rfl, rfl, rfl, rfl, rfl, rfl, rfl⟩

theorem block_erase_chan (st : State) (a l : Nat) :
    (cros_ec_block_erase st a l).2.1.chan = st.chan := by
  have hch := (ec_check_features_frame st EC_FEATURE_EXEC_IN_RAM).1
  simp only [cros_ec_block_erase]
  repeat' split
  all_goals exact hch

theorem writeLoop_chan (c : Nat) (buf : List Nat) (addr : Nat) :
    ∀ (fuel : Nat) (st : State) (i j : Nat),
      (writeLoop st c buf addr i j fuel).2.1.chan = st.chan := by
  intro fuel
  induction fuel with
  | zero => intro st i j; rfl
  | succ f ih =>
    intro st i j
    have hch := (ec_check_features_frame st EC_FEATURE_EXEC_IN_RAM).1
    simp only [writeLoop]
    repeat' split
    all_goals first
      | rfl
      | exact hch
      | exact (ih _ _ _).trans hch

theorem invalidate_overlap (addr len : Nat) (fw : Nat → FmapArea) (i : Nat)
    (h1 : 1 ≤ i) (h2 : i < 4)
    (hs : (fw i).offset + (fw i).size < U32) (hal : addr + len < U32)
    (_hpos : 0 < (fw i).size)
    (ho1 : addr < (fw i).offset + (fw i).size) (ho2 : (fw i).offset < addr + len) :
    (cros_ec_invalidate_copy addr len fw i).flags = 0 := by
  unfold cros_ec_invalidate_copy invalidateArea
  rw [if_pos ⟨h1, h2⟩]
  have hc : ((fw i).offset ≤ addr ∧ addr < ((fw i).offset + (fw i).size) % U32) ∨
      (addr ≤ (fw i).offset ∧ (fw i).offset < (addr + len) % U32) := by
    rw [Nat.mod_eq_of_lt hs, Nat.mod_eq_of_lt hal]
    omega
  rw [if_pos hc]

theorem wp_is_enabled_eval (st : State) (hwp : 12 ≤ st.chan.wpRc)
    (hflags : st.chan.wpFlags &&& EC_FLASH_PROTECT_NOW_MASK = 0) :
    cros_ec_wp_is_enabled st = (0, [Call.flashProtect]) := by
  unfold cros_ec_wp_is_enabled
  rw [if_neg (by omega), if_neg (by omega), if_neg (by simp [hflags])]

theorem applyArea_flags (fa : FmapNamed) (fw : Nat → FmapArea) (i : Nat)
    (h : (fw i).flags = 1) : (applyArea fa fw i).flags = 1 := by
  unfold applyArea
  split
  · rfl
  · exact h

theorem applyFmap_fresh (areas : List FmapNamed) :
    ∀ (fw : Nat → FmapArea) (i : Nat), 1 ≤ i → i < 3 →
      ((fw i).flags = 1 ∨ ∃ fa ∈ areas, sectionName i = fa.name) →
      (applyFmap areas fw i).flags = 1 := by
  induction areas with
  | nil =>
    intro fw i _ _ h
    rcases h with h | ⟨fa, hm, _⟩
    · exact h
    · cases hm
  | cons fa rest ih =>
    intro fw i h1 h2 h
    simp only [applyFmap]
    refine ih (applyArea fa fw) i h1 h2 ?_
    rcases h with h | ⟨fb, hm, hname⟩
    · exact Or.inl (applyArea_flags fa fw i h)
    · rcases List.mem_cons.mp hm with rfl | hmem
      · left
        unfold applyArea
        rw [if_pos ⟨⟨h1, h2⟩, hname⟩]
      · exact Or.inr ⟨fb, hmem, hname⟩

theorem prepare_fwcopy (st : State) (areas : List FmapNamed)
    (hnull : st.privNull = false) (hdet : st.priv.detected = true)
    (hwp : 12 ≤ st.chan.wpRc)
    (hflags : st.chan.wpFlags &&& EC_FLASH_PROTECT_NOW_MASK = 0) :
    (cros_ec_prepare st (some areas)).2.1.fwcopy = applyFmap areas st.fwcopy := by
  have hni : ¬(st.privNull = true ∨ st.priv.detected = false) := by
    simp [hnull, hdet]
  have hch1 := (ec_check_features_frame st EC_FEATURE_RWSIG).1
  have hfw1 := (ec_check_features_frame st EC_FEATURE_RWSIG).2.2.1
  simp only [cros_ec_prepare]
  rw [if_neg hni]
  by_cases hfr : 0 < (ec_check_features st EC_FEATURE_RWSIG).1
  · simp only [if_pos hfr]
    rw [wp_is_enabled_eval _ (hch1.symm ▸ hwp) (hch1.symm ▸ hflags)]
    rw [if_neg (by norm_num), if_neg (by norm_num)]
    split
    · exact ((ec_check_features_frame _ _).2.2.1).trans (congrArg (applyFmap areas) hfw1)
    · exact ((jump_frame _ _).1).trans
        (((ec_check_features_frame _ _).2.2.1).trans (congrArg (applyFmap areas) hfw1))
  · simp only [if_neg hfr]
    rw [wp_is_enabled_eval _ (hch1.symm ▸ hwp) (hch1.symm ▸ hflags)]
    rw [if_neg (by norm_num), if_neg (by norm_num)]
    split
    · exact ((ec_check_features_frame _ _).2.2.1).trans (congrArg (applyFmap areas) hfw1)
    · exact ((jump_frame _ _).1).trans
        (((ec_check_features_frame _ _).2.2.1).trans (congrArg (applyFmap areas) hfw1))

theorem writeLoop_head_denied (st : State) (c : Nat) (buf : List Nat) (addr i j fuel : Nat)
    (hi : i < buf.length) (hfuel : fuel ≠ 0)
    (hf : (ec_check_features st EC_FEATURE_EXEC_IN_RAM).1 ≤ 0)
    (hin : in_current_image st ((addr + i) % U32) (min (buf.length - i) c) = true) :
    writeLoop st c buf addr i j fuel =
      (SPI_ACCESS_DENIED,
       { (ec_check_features st EC_FEATURE_EXEC_IN_RAM).2.1 with
          fwcopy := cros_ec_invalidate_copy addr buf.length
            (ec_check_features st EC_FEATURE_EXEC_IN_RAM).2.1.fwcopy,
          need_2nd_pass := 1 },
       (ec_check_features st EC_FEATURE_EXEC_IN_RAM).2.2) := by
  obtain ⟨f, rfl⟩ : ∃ f, fuel = f + 1 := ⟨fuel - 1, by omega⟩
  have hfr := ec_check_features_frame st EC_FEATURE_EXEC_IN_RAM
  simp only [writeLoop]
  rw [if_pos hi, if_pos ⟨hf, by rw [in_current_image_congr hfr.2.1]; exact hin⟩]

/-! Jump-resolution lemmas. -/

theorem jump_unknown_no_fresh (st : State)
    (h1 : (st.fwcopy EC_IMAGE_RO).flags = 0) (h2 : (st.fwcopy EC_IMAGE_RW).flags = 0) :
    (cros_ec_jump_copy st EC_IMAGE_UNKNOWN).1 = 1 := by
  simp only [EC_IMAGE_RO, EC_IMAGE_RW] at h1 h2
  by_cases hg : st.chan.getVersionRc < 0
  · simp [cros_ec_jump_copy, cros_ec_get_current_image, hg]
  · by_cases hi : st.chan.image = 0
    · simp [cros_ec_jump_copy, cros_ec_get_current_image, EC_IMAGE_UNKNOWN, hg, hi]
    · have hnn : ¬((st.chan.image : Int) < 0) := by omega
      have hz : ¬((st.chan.image : Int) = 0) := by omega
      simp [cros_ec_jump_copy, cros_ec_get_current_image, EC_IMAGE_UNKNOWN, EC_IMAGE_RO,
        EC_IMAGE_RW, hg, hi, hnn, hz, h1, h2]

theorem jump_noop_resolved (st : State) (target : Nat)
    (hg : 0 ≤ st.chan.getVersionRc) (hi0 : st.chan.image ≠ EC_IMAGE_UNKNOWN)
    (hres : target = st.chan.image ∨
      (target = EC_IMAGE_UNKNOWN ∧
        ((st.chan.image = EC_IMAGE_RO ∧ (st.fwcopy EC_IMAGE_RO).flags ≠ 0) ∨
         (st.chan.image = EC_IMAGE_RW ∧ (st.fwcopy EC_IMAGE_RO).flags = 0 ∧
          (st.fwcopy EC_IMAGE_RW).flags ≠ 0)))) :
    (cros_ec_jump_copy st target).1 = 0 ∧
    (cros_ec_jump_copy st target).2.2 = [Call.getVersion] ∧
    ((cros_ec_jump_copy st target).2.1.priv.current_image = st.priv.current_image ∨
     (cros_ec_jump_copy st target).2.1.priv.current_image = st.chan.image) := by
  simp only [EC_IMAGE_UNKNOWN] at hi0
  have hgn : ¬(st.chan.getVersionRc < 0) := by omega
  have hnn : ¬((st.chan.image : Int) < 0) := by omega
  have hz : ¬((st.chan.image : Int) = 0) := by omega
  rcases hres with rfl | ⟨rfl, hres⟩
  · simp [cros_ec_jump_copy, cros_ec_get_current_image, hgn, hi0, hnn, hz, EC_IMAGE_UNKNOWN]
  · rcases hres with ⟨him, hro⟩ | ⟨him, hro, hrw⟩
    · simp only [EC_IMAGE_RO] at him hro
      simp [cros_ec_jump_copy, cros_ec_get_current_image, hgn, hi0, hnn, hz, him, hro,
        EC_IMAGE_UNKNOWN, EC_IMAGE_RO, EC_IMAGE_RW, EC_REBOOT_JUMP_RO, EC_REBOOT_JUMP_RW]
    · simp only [EC_IMAGE_RO, EC_IMAGE_RW] at him hro hrw
      simp [cros_ec_jump_copy, cros_ec_get_current_image, hgn, hi0, hnn, hz, him, hro, hrw,
        EC_IMAGE_UNKNOWN, EC_IMAGE_RO, EC_IMAGE_RW, EC_REBOOT_JUMP_RO, EC_REBOOT_JUMP_RW]

theorem jump_unknown_reboot (st : State) (t' : Nat)
    (hg : 0 ≤ st.chan.getVersionRc) (hi0 : st.chan.image ≠ EC_IMAGE_UNKNOWN)
    (hne : st.chan.image ≠ t') (hrb : 0 ≤ st.chan.rebootRc)
    (ht' : (t' = EC_IMAGE_RO ∧ (st.fwcopy EC_IMAGE_RO).flags ≠ 0) ∨
           (t' = EC_IMAGE_RW ∧ (st.fwcopy EC_IMAGE_RO).flags = 0 ∧
            (st.fwcopy EC_IMAGE_RW).flags ≠ 0)) :
    (cros_ec_jump_copy st EC_IMAGE_UNKNOWN).1 = 0 ∧
    (cros_ec_jump_copy st EC_IMAGE_UNKNOWN).2.1 =
      { st with chan := { st.chan with image := t' },
                priv := { st.priv with current_image := t' } } ∧
    Call.rebootEc t' ∈ (cros_ec_jump_copy st EC_IMAGE_UNKNOWN).2.2 := by
  simp only [EC_IMAGE_UNKNOWN] at hi0
  have hgn : ¬(st.chan.getVersionRc < 0) := by omega
  have hnn : ¬((st.chan.image : Int) < 0) := by omega
  have hz : ¬((st.chan.image : Int) = 0) := by omega
  have hrbn : ¬(st.chan.rebootRc < 0) := by omega
  rcases ht' with ⟨rfl, hro⟩ | ⟨rfl, hro, hrw⟩
  · simp only [EC_IMAGE_RO] at hro hne
    have hni : ¬((st.chan.image : Int) = 1) := by omega
    by_cases hrw0 : st.rwsig_enabled = 0 <;>
      simp [cros_ec_jump_copy, cros_ec_get_current_image, hgn, hi0, hnn, hz, hni, hrbn,
        hro, hrw0, EC_RES_SUCCESS, EC_IMAGE_UNKNOWN, EC_IMAGE_RO, EC_IMAGE_RW,
        EC_REBOOT_JUMP_RO, EC_REBOOT_JUMP_RW]
  · simp only [EC_IMAGE_RO, EC_IMAGE_RW] at hro hrw hne
    have hni : ¬((st.chan.image : Int) = 2) := by omega
    by_cases hrw0 : st.rwsig_enabled = 0 <;>
      simp [cros_ec_jump_copy, cros_ec_get_current_image, hgn, hi0, hnn, hz, hni, hrbn,
        hro, hrw, hrw0, EC_RES_SUCCESS, EC_IMAGE_UNKNOWN, EC_IMAGE_RO, EC_IMAGE_RW,
        EC_REBOOT_JUMP_RO, EC_REBOOT_JUMP_RW]

theorem jump_unknown_noop (st : State)
    (hg : 0 ≤ st.chan.getVersionRc)
    (ht' : (st.chan.image = EC_IMAGE_RO ∧ (st.fwcopy EC_IMAGE_RO).flags ≠ 0) ∨
           (st.chan.image = EC_IMAGE_RW ∧ (st.fwcopy EC_IMAGE_RO).flags = 0 ∧
            (st.fwcopy EC_IMAGE_RW).flags ≠ 0)) :
    cros_ec_jump_copy st EC_IMAGE_UNKNOWN =
      (0, { st with priv := { st.priv with current_image := st.chan.image } },
       [Call.getVersion]) := by
  have hgn : ¬(st.chan.getVersionRc < 0) := by omega
  rcases ht' with ⟨him, hro⟩ | ⟨him, hro, hrw⟩
  · simp only [EC_IMAGE_RO] at him hro
    simp [cros_ec_jump_copy, cros_ec_get_current_image, hgn, him, hro,
      EC_IMAGE_UNKNOWN, EC_IMAGE_RO, EC_IMAGE_RW, EC_REBOOT_JUMP_RO, EC_REBOOT_JUMP_RW]
  · simp only [EC_IMAGE_RO, EC_IMAGE_RW] at him hro hrw
    simp [cros_ec_jump_copy, cros_ec_get_current_image, hgn, him, hro, hrw,
      EC_IMAGE_UNKNOWN, EC_IMAGE_RO, EC_IMAGE_RW, EC_REBOOT_JUMP_RO, EC_REBOOT_JUMP_RW]

/-! Claim theorems. -/

/-- Claim C1 (amended).  For cros_ec_block_erase, if the device lacks the
execute-elsewhere capability and the requested range overlaps the region of
the executing image, the call returns the distinguished Denied result, sets
the pending-retry flag, clears the fresh flag of every copy whose (nonempty,
non-wrapping) range overlaps the requested range, and issues no transport
call beyond the feature query: a transport error is impossible.  For
cros_ec_write the guard is evaluated per chunk, so the same conclusion is
guaranteed when the first chunk of the request overlaps the executing image
(when only a later chunk overlaps, an earlier chunk can fail with a
transport error first, as the counterexample shows); the invalidation then
covers the whole requested range. -/
theorem claim_C1_amended :
    (∀ (st : State) (addr len : Nat),
      (ec_check_features st EC_FEATURE_EXEC_IN_RAM).1 ≤ 0 →
      in_current_image st addr len = true →
      (cros_ec_block_erase st addr len).1 = SPI_ACCESS_DENIED ∧
      (cros_ec_block_erase st addr len).2.1.need_2nd_pass = 1 ∧
      (∀ i, 1 ≤ i → i < 4 →
        (st.fwcopy i).offset + (st.fwcopy i).size < U32 → addr + len < U32 →
        0 < (st.fwcopy i).size →
        addr < (st.fwcopy i).offset + (st.fwcopy i).size →
        (st.fwcopy i).offset < addr + len →
        ((cros_ec_block_erase st addr len).2.1.fwcopy i).flags = 0) ∧
      (∀ c ∈ (cros_ec_block_erase st addr len).2.2, c = Call.getFeatures)) ∧
    (∀ (st : State) (maxw : Nat) (buf : List Nat) (addr : Nat),
      chunkSize maxw st.priv.ideal_write_size ≠ 0 → buf ≠ [] → addr < U32 →
      (ec_check_features st EC_FEATURE_EXEC_IN_RAM).1 ≤ 0 →
      in_current_image st addr
        (min buf.length (chunkSize maxw st.priv.ideal_write_size)) = true →
      (cros_ec_write st maxw buf addr).map Prod.fst = some SPI_ACCESS_DENIED ∧
      (∀ r, cros_ec_write st maxw buf addr = some r →
        r.2.1.need_2nd_pass = 1 ∧
        (∀ i, 1 ≤ i → i < 4 →
          (st.fwcopy i).offset + (st.fwcopy i).size < U32 → addr + buf.length < U32 →
          0 < (st.fwcopy i).size →
          addr < (st.fwcopy i).offset + (st.fwcopy i).size →
          (st.fwcopy i).offset < addr + buf.length →
          (r.2.1.fwcopy i).flags = 0) ∧
        (∀ c ∈ r.2.2, c = Call.getFeatures))) := by
  constructor
  · intro st addr len hf hin
    have hfr := ec_check_features_frame st EC_FEATURE_EXEC_IN_RAM
    have hcond : (ec_check_features st EC_FEATURE_EXEC_IN_RAM).1 ≤ 0 ∧
        in_current_image (ec_check_features st EC_FEATURE_EXEC_IN_RAM).2.1 addr len = true :=
      ⟨hf, by rw [in_current_image_congr hfr.2.1]; exact hin⟩
    have hred : cros_ec_block_erase st addr len =
        (SPI_ACCESS_DENIED,
         { (ec_check_features st EC_FEATURE_EXEC_IN_RAM).2.1 with
            fwcopy := cros_ec_invalidate_copy addr len
              (ec_check_features st EC_FEATURE_EXEC_IN_RAM).2.1.fwcopy,
            need_2nd_pass := 1 },
         (ec_check_features st EC_FEATURE_EXEC_IN_RAM).2.2) := by
      simp only [cros_ec_block_erase]
      rw [if_pos hcond]
    rw [hred]
    refine ⟨rfl, rfl, ?_, ?_⟩
    · intro i h1 h2 hs hal hpos ho1 ho2
      show (cros_ec_invalidate_copy addr len
        (ec_check_features st EC_FEATURE_EXEC_IN_RAM).2.1.fwcopy i).flags = 0
      rw [hfr.2.2.1]
      exact invalidate_overlap addr len st.fwcopy i h1 h2 hs hal hpos ho1 ho2
    · exact ec_check_features_trace st EC_FEATURE_EXEC_IN_RAM
  · intro st maxw buf addr hc hbuf haddr hf hin
    have hfr := ec_check_features_frame st EC_FEATURE_EXEC_IN_RAM
    have hlen : 0 < buf.length := List.length_pos.mpr hbuf
    have hwred : cros_ec_write st maxw buf addr =
        some (SPI_ACCESS_DENIED,
          { (ec_check_features st EC_FEATURE_EXEC_IN_RAM).2.1 with
              fwcopy := cros_ec_invalidate_copy addr buf.length
                (ec_check_features st EC_FEATURE_EXEC_IN_RAM).2.1.fwcopy,
              need_2nd_pass := 1 },
          (ec_check_features st EC_FEATURE_EXEC_IN_RAM).2.2) := by
      unfold cros_ec_write
      rw [if_neg hc]
      congr 1
      refine writeLoop_head_denied st _ buf addr 0 0 buf.length hlen (by omega) hf ?_
      simpa [Nat.mod_eq_of_lt haddr] using hin
    constructor
    · rw [hwred]; rfl
    · intro r hr
      rw [hwred] at hr
      injection hr with hr
      subst hr
      refine ⟨rfl, ?_, ?_⟩
      · intro i h1 h2 hs hal hpos ho1 ho2
        show (cros_ec_invalidate_copy addr buf.length
          (ec_check_features st EC_FEATURE_EXEC_IN_RAM).2.1.fwcopy i).flags = 0
        rw [hfr.2.2.1]
        exact invalidate_overlap addr buf.length st.fwcopy i h1 h2 hs hal hpos ho1 ho2
      · exact ec_check_features_trace st EC_FEATURE_EXEC_IN_RAM

set_option maxRecDepth 4000 in
/-- Claim C1 counterexample.  A device without execute-elsewhere capability,
executing image region [100, 110), a write request of 200 bytes at address 0
(which overlaps the executing region), and a transport failing the first
chunk: the request range overlaps the current image, yet the call returns
the transport error -1, not the Denied result, because the guard is checked
chunk by chunk and the first chunk [0, 8) does not overlap. -/
theorem claim_C1_cex :
    (ec_check_features stC1x EC_FEATURE_EXEC_IN_RAM).1 ≤ 0 ∧
    in_current_image stC1x 0 200 = true ∧
    (cros_ec_write stC1x 16 (List.replicate 200 0) 0).map Prod.fst = some (-1) := by
  decide

/-- Witness for claim C1: concrete denied erase (both flags and result) and
concrete denied write whose first chunk overlaps. -/
theorem claim_C1_witness :
    ((cros_ec_block_erase stBase 100 10).1 = SPI_ACCESS_DENIED ∧
     (cros_ec_block_erase stBase 100 10).2.1.need_2nd_pass = 1 ∧
     ((cros_ec_block_erase stBase 100 10).2.1.fwcopy 2).flags = 0) ∧
    (cros_ec_write stC1w 16 (List.replicate 20 0) 100).map Prod.fst =
      some SPI_ACCESS_DENIED := by
  constructor
  · obtain ⟨h1, h2, h3, -⟩ := claim_C1_amended.1 stBase 100 10 (by decide) (by decide)
    exact ⟨h1, h2, h3 2 (by decide) (by decide) (by decide) (by decide) (by decide)
      (by decide) (by decide)⟩
  · exact (claim_C1_amended.2 stC1w 16 (List.replicate 20 0) 100 (by decide) (by decide)
      (by decide) (by decide) (by decide)).1

/-- Claim C2 (code bug).  When the capability query that determines the
supported erase-command versions fails with a negative status (-3 here),
cros_ec_block_erase returns 0 — the success value — instead of propagating
the negative status, and issues no erase command at all: the trace is just
the feature query and the failed capability query. -/
theorem claim_C2_bug :
    stC2x.chan.cmdVersionsRc EC_CMD_FLASH_ERASE = -3 ∧
    (cros_ec_block_erase stC2x 0 4096).1 = 0 ∧
    (cros_ec_block_erase stC2x 0 4096).2.2 =
      [Call.getFeatures, Call.getCmdVersions EC_CMD_FLASH_ERASE] := by
  decide

/-- Claim C4.  cros_ec_jump_copy with target EC_IMAGE_UNKNOWN resolves to RO
when the RO copy is fresh (rebooting to RO and recording it), else to RW
when the RW copy is fresh, and fails (returns 1, no eligible target) when
neither is fresh — for any device responses; consequently, with the session
attached, the retry flag set, no EXEC_IN_RAM capability, and no copy marked
fresh (as after a failed firmware-map parse), cros_ec_need_2nd_pass returns
the negative cannot-jump result -1. -/
theorem claim_C4 :
    (∀ st : State, (st.fwcopy EC_IMAGE_RO).flags = 0 → (st.fwcopy EC_IMAGE_RW).flags = 0 →
      (cros_ec_jump_copy st EC_IMAGE_UNKNOWN).1 = 1) ∧
    (∀ st : State, (st.fwcopy EC_IMAGE_RO).flags ≠ 0 → 0 ≤ st.chan.getVersionRc →
      st.chan.image = EC_IMAGE_RW → 0 ≤ st.chan.rebootRc →
      (cros_ec_jump_copy st EC_IMAGE_UNKNOWN).1 = 0 ∧
      (cros_ec_jump_copy st EC_IMAGE_UNKNOWN).2.1.priv.current_image = EC_IMAGE_RO ∧
      Call.rebootEc EC_REBOOT_JUMP_RO ∈ (cros_ec_jump_copy st EC_IMAGE_UNKNOWN).2.2) ∧
    (∀ st : State, (st.fwcopy EC_IMAGE_RO).flags = 0 → (st.fwcopy EC_IMAGE_RW).flags ≠ 0 →
      0 ≤ st.chan.getVersionRc → st.chan.image = EC_IMAGE_RO → 0 ≤ st.chan.rebootRc →
      (cros_ec_jump_copy st EC_IMAGE_UNKNOWN).1 = 0 ∧
      (cros_ec_jump_copy st EC_IMAGE_UNKNOWN).2.1.priv.current_image = EC_IMAGE_RW ∧
      Call.rebootEc EC_REBOOT_JUMP_RW ∈ (cros_ec_jump_copy st EC_IMAGE_UNKNOWN).2.2) ∧
    (∀ st : State, st.privNull = false → st.priv.detected = true → st.need_2nd_pass ≠ 0 →
      (ec_check_features st EC_FEATURE_EXEC_IN_RAM).1 ≤ 0 →
      (st.fwcopy EC_IMAGE_RO).flags = 0 → (st.fwcopy EC_IMAGE_RW).flags = 0 →
      (cros_ec_need_2nd_pass st).1 = -1) := by
  refine ⟨fun st h1 h2 => jump_unknown_no_fresh st h1 h2, ?_, ?_, ?_⟩
  · intro st hro hg him hrb
    obtain ⟨ha, hb, hc⟩ := jump_unknown_reboot st EC_IMAGE_RO hg (by rw [him]; decide)
      (by rw [him]; decide) hrb (Or.inl ⟨rfl, hro⟩)
    refine ⟨ha, ?_, hc⟩
    rw [hb]
  · intro st hro hrw hg him hrb
    obtain ⟨ha, hb, hc⟩ := jump_unknown_reboot st EC_IMAGE_RW hg (by rw [him]; decide)
      (by rw [him]; decide) hrb (Or.inr ⟨rfl, hro, hrw⟩)
    refine ⟨ha, ?_, hc⟩
    rw [hb]
  · intro st hnull hdet hneed hf h1 h2
    have hni : ¬(st.privNull = true ∨ st.priv.detected = false) := by
      simp [hnull, hdet]
    have hfr := ec_check_features_frame st EC_FEATURE_EXEC_IN_RAM
    have hj : (cros_ec_jump_copy (ec_check_features st EC_FEATURE_EXEC_IN_RAM).2.1
        EC_IMAGE_UNKNOWN).1 = 1 :=
      jump_unknown_no_fresh _ (by rw [hfr.2.2.1]; exact h1) (by rw [hfr.2.2.1]; exact h2)
    simp only [cros_ec_need_2nd_pass]
    rw [if_neg hni, if_neg hneed,
      if_neg (by omega : ¬(0 < (ec_check_features st EC_FEATURE_EXEC_IN_RAM).1)),
      if_pos (by rw [hj]; decide :
        (cros_ec_jump_copy (ec_check_features st EC_FEATURE_EXEC_IN_RAM).2.1
          EC_IMAGE_UNKNOWN).1 ≠ 0)]

/-- Witness for claim C4: concrete no-fresh failure, RO and RW resolutions,
and the -1 result of cros_ec_need_2nd_pass after a failed scan. -/
theorem claim_C4_witness :
    ((cros_ec_jump_copy stC4n EC_IMAGE_UNKNOWN).1 = 1) ∧
    ((cros_ec_jump_copy stBase EC_IMAGE_UNKNOWN).1 = 0 ∧
     (cros_ec_jump_copy stBase EC_IMAGE_UNKNOWN).2.1.priv.current_image = EC_IMAGE_RO) ∧
    ((cros_ec_jump_copy stC4c EC_IMAGE_UNKNOWN).1 = 0 ∧
     (cros_ec_jump_copy stC4c EC_IMAGE_UNKNOWN).2.1.priv.current_image = EC_IMAGE_RW) ∧
    (cros_ec_need_2nd_pass stC4d).1 = -1 := by
  refine ⟨claim_C4.1 stC4n (by decide) (by decide), ?_, ?_,
    claim_C4.2.2.2 stC4d (by decide) (by decide) (by decide) (by decide) (by decide)
      (by decide)⟩
  · obtain ⟨h1, h2, -⟩ := claim_C4.2.1 stBase (by decide) (by decide) (by decide) (by decide)
    exact ⟨h1, h2⟩
  · obtain ⟨h1, h2, -⟩ := claim_C4.2.2.1 stC4c (by decide) (by decide) (by decide)
      (by decide) (by decide)
    exact ⟨h1, h2⟩

/-- Claim C6.  Jump-to-Newest is idempotent: with a responsive device
executing RO or RW and at least one fresh copy, two consecutive calls of
cros_ec_jump_copy with target EC_IMAGE_UNKNOWN both succeed, the second
leaves current_image exactly as the first left it, and the second issues no
reboot command; more generally, any jump whose resolved target is the image
the device already reports executing succeeds with a single GET_VERSION call
and no reboot. -/
theorem claim_C6 :
    (∀ st : State, 0 ≤ st.chan.getVersionRc →
      (st.chan.image = EC_IMAGE_RO ∨ st.chan.image = EC_IMAGE_RW) →
      0 ≤ st.chan.rebootRc →
      ((st.fwcopy EC_IMAGE_RO).flags ≠ 0 ∨ (st.fwcopy EC_IMAGE_RW).flags ≠ 0) →
      (cros_ec_jump_copy st EC_IMAGE_UNKNOWN).1 = 0 ∧
      (cros_ec_jump_copy (cros_ec_jump_copy st EC_IMAGE_UNKNOWN).2.1 EC_IMAGE_UNKNOWN).1 = 0 ∧
      (cros_ec_jump_copy (cros_ec_jump_copy st EC_IMAGE_UNKNOWN).2.1
          EC_IMAGE_UNKNOWN).2.1.priv.current_image =
        (cros_ec_jump_copy st EC_IMAGE_UNKNOWN).2.1.priv.current_image ∧
      (∀ k, Call.rebootEc k ∉
        (cros_ec_jump_copy (cros_ec_jump_copy st EC_IMAGE_UNKNOWN).2.1
          EC_IMAGE_UNKNOWN).2.2)) ∧
    (∀ (st : State) (target : Nat), 0 ≤ st.chan.getVersionRc →
      st.chan.image ≠ EC_IMAGE_UNKNOWN →
      (target = st.chan.image ∨
        (target = EC_IMAGE_UNKNOWN ∧
          ((st.chan.image = EC_IMAGE_RO ∧ (st.fwcopy EC_IMAGE_RO).flags ≠ 0) ∨
           (st.chan.image = EC_IMAGE_RW ∧ (st.fwcopy EC_IMAGE_RO).flags = 0 ∧
            (st.fwcopy EC_IMAGE_RW).flags ≠ 0)))) →
      (cros_ec_jump_copy st target).1 = 0 ∧
      (∀ k, Call.rebootEc k ∉ (cros_ec_jump_copy st target).2.2)) := by
  constructor
  · intro st hg him hrb hfw
    by_cases h1 : (st.fwcopy EC_IMAGE_RO).flags = 0
    · have h2 : (st.fwcopy EC_IMAGE_RW).flags ≠ 0 := by
        rcases hfw with h | h
        · exact absurd h1 h
        · exact h
      rcases him with him | him
      · obtain ⟨ha, hb, -⟩ := jump_unknown_reboot st EC_IMAGE_RW hg (by rw [him]; decide)
          (by rw [him]; decide) hrb (Or.inr ⟨rfl, h1, h2⟩)
        have hsec := jump_unknown_noop (cros_ec_jump_copy st EC_IMAGE_UNKNOWN).2.1
          (by rw [hb]; exact hg)
          (Or.inr ⟨by rw [hb], by rw [hb]; exact h1, by rw [hb]; exact h2⟩)
        refine ⟨ha, by rw [hsec], ?_, ?_⟩
        · rw [hsec, hb]
        · intro k
          rw [hsec]
          simp
      · obtain hfirst := jump_unknown_noop st hg (Or.inr ⟨him, h1, h2⟩)
        have hsec := jump_unknown_noop (cros_ec_jump_copy st EC_IMAGE_UNKNOWN).2.1
          (by rw [hfirst]; exact hg)
          (Or.inr ⟨by rw [hfirst]; exact him, by rw [hfirst]; exact h1,
            by rw [hfirst]; exact h2⟩)
        refine ⟨by rw [hfirst], by rw [hsec], ?_, ?_⟩
        · rw [hsec, hfirst]
        · intro k
          rw [hsec]
          simp
    · rcases him with him | him
      · obtain hfirst := jump_unknown_noop st hg (Or.inl ⟨him, h1⟩)
        have hsec := jump_unknown_noop (cros_ec_jump_copy st EC_IMAGE_UNKNOWN).2.1
          (by rw [hfirst]; exact hg)
          (Or.inl ⟨by rw [hfirst]; exact him, by rw [hfirst]; exact h1⟩)
        refine ⟨by rw [hfirst], by rw [hsec], ?_, ?_⟩
        · rw [hsec, hfirst]
        · intro k
          rw [hsec]
          simp
      · obtain ⟨ha, hb, -⟩ := jump_unknown_reboot st EC_IMAGE_RO hg (by rw [him]; decide)
          (by rw [him]; decide) hrb (Or.inl ⟨rfl, h1⟩)
        have hsec := jump_unknown_noop (cros_ec_jump_copy st EC_IMAGE_UNKNOWN).2.1
          (by rw [hb]; exact hg)
          (Or.inl ⟨by rw [hb], by rw [hb]; exact h1⟩)
        refine ⟨ha, by rw [hsec], ?_, ?_⟩
        · rw [hsec, hb]
        · intro k
          rw [hsec]
          simp
  · intro st target hg hi0 hres
    obtain ⟨h1, h2, -⟩ := jump_noop_resolved st target hg hi0 hres
    refine ⟨h1, ?_⟩
    intro k
    rw [h2]
    simp

/-- Witness for claim C6: the concrete double jump-to-Newest from the
baseline state (device in RW, RO fresh) and a no-op jump to the already
executing RW image. -/
theorem claim_C6_witness :
    ((cros_ec_jump_copy stBase EC_IMAGE_UNKNOWN).1 = 0 ∧
     (cros_ec_jump_copy (cros_ec_jump_copy stBase EC_IMAGE_UNKNOWN).2.1
        EC_IMAGE_UNKNOWN).1 = 0 ∧
     (cros_ec_jump_copy (cros_ec_jump_copy stBase EC_IMAGE_UNKNOWN).2.1
        EC_IMAGE_UNKNOWN).2.1.priv.current_image =
      (cros_ec_jump_copy stBase EC_IMAGE_UNKNOWN).2.1.priv.current_image ∧
     Call.rebootEc EC_REBOOT_JUMP_RO ∉
      (cros_ec_jump_copy (cros_ec_jump_copy stBase EC_IMAGE_UNKNOWN).2.1
        EC_IMAGE_UNKNOWN).2.2) ∧
    ((cros_ec_jump_copy stBase EC_IMAGE_RW).1 = 0 ∧
     Call.rebootEc EC_REBOOT_JUMP_RW ∉ (cros_ec_jump_copy stBase EC_IMAGE_RW).2.2) := by
  constructor
  · obtain ⟨h1, h2, h3, h4⟩ := claim_C6.1 stBase (by decide) (by decide) (by decide)
      (by decide)
    exact ⟨h1, h2, h3, h4 EC_REBOOT_JUMP_RO⟩
  · obtain ⟨h1, h2⟩ := claim_C6.2 stBase EC_IMAGE_RW (by decide) (by decide)
      (Or.inl (by decide))
    exact ⟨h1, h2 EC_REBOOT_JUMP_RW⟩

/-- Claim C9 (amended).  Immediately after cros_ec_prepare (on the path that
reaches the firmware-map scan: session attached, write-protect query
succeeding and reporting protection off), the fresh flag of the RO copy is
1 — fresh — whenever the parsed firmware map contains an area named EC_RO:
prepare marks every recognized section fresh, RO included, and the forced
jump to RO does not touch the table.  The RO copy is invalidated only later,
when an erase or write overlapping the executing copy is denied. -/
theorem claim_C9_amended (st : State) (areas : List FmapNamed) (fa : FmapNamed)
    (hnull : st.privNull = false) (hdet : st.priv.detected = true)
    (hwp : 12 ≤ st.chan.wpRc)
    (hflags : st.chan.wpFlags &&& EC_FLASH_PROTECT_NOW_MASK = 0)
    (hmem : fa ∈ areas) (hname : fa.name = "EC_RO") :
    ((cros_ec_prepare st (some areas)).2.1.fwcopy EC_IMAGE_RO).flags = 1 := by
  rw [congrFun (prepare_fwcopy st areas hnull hdet hwp hflags) EC_IMAGE_RO]
  refine applyFmap_fresh areas st.fwcopy EC_IMAGE_RO (by decide) (by decide)
    (Or.inr ⟨fa, hmem, ?_⟩)
  rw [hname]
  decide

/-- Claim C9 counterexample.  A concrete prepare run that succeeds, forces
the device into RO, and leaves fwcopy[RO].flags = 1 (fresh), contradicting
the claim that the executing copy's fresh flag is false immediately after
the forced jump to RO. -/
theorem claim_C9_cex :
    (cros_ec_prepare stC9x (some areasC9)).1 = 0 ∧
    (cros_ec_prepare stC9x (some areasC9)).2.1.priv.current_image = EC_IMAGE_RO ∧
    ((cros_ec_prepare stC9x (some areasC9)).2.1.fwcopy EC_IMAGE_RO).flags = 1 := by
  decide

/-- Witness for claim C9 (amended), at the concrete prepare run. -/
theorem claim_C9_witness :
    ((cros_ec_prepare stC9x (some areasC9)).2.1.fwcopy EC_IMAGE_RO).flags = 1 :=
  claim_C9_amended stC9x areasC9 ⟨"EC_RO", 0, 50⟩ (by decide) (by decide) (by decide)
    (by decide) (by decide) (by decide)

/-- Claim C10.  When no EC session is attached (null pointer or detected
unset), cros_ec_prepare, cros_ec_need_2nd_pass and cros_ec_finish each
return 0, issue no command-channel call, and leave the state unchanged. -/
theorem claim_C10 (st : State) (fmapAreas : Option (List FmapNamed))
    (h : st.privNull = true ∨ st.priv.detected = false) :
    cros_ec_prepare st fmapAreas = (0, st, []) ∧
    cros_ec_need_2nd_pass st = (0, st, []) ∧
    cros_ec_finish st = (0, st, []) := by
  unfold cros_ec_prepare cros_ec_need_2nd_pass cros_ec_finish
  rw [if_pos h, if_pos h, if_pos h]
  exact ⟨rfl, rfl, rfl⟩

/-- Witness for claim C10 at a concrete detached state. -/
theorem claim_C10_witness :
    cros_ec_prepare stC10w none = (0, stC10w, []) ∧
    cros_ec_need_2nd_pass stC10w = (0, stC10w, []) ∧
    cros_ec_finish stC10w = (0, stC10w, []) :=
  claim_C10 stC10w none (Or.inl rfl)

/-! Write-chunking lemmas (claim C5). -/

theorem writePayloads_append (xs ys : List Call) :
    writePayloads (xs ++ ys) = writePayloads xs ++ writePayloads ys := by
  induction xs with
  | nil => rfl
  | cons c rest ih => cases c <;> simp [writePayloads, ih]

theorem writePayloads_features (st : State) (f : Nat) :
    writePayloads (ec_check_features st f).2.2 = [] := by
  unfold ec_check_features
  repeat' split
  all_goals rfl

theorem ceil_div_step (m c : Nat) (hm : 0 < m) (hc : 0 < c) :
    (m + c - 1) / c = (m - min m c + c - 1) / c + 1 := by
  rcases Nat.le_total m c with h | h
  · rw [Nat.min_eq_left h, Nat.sub_self]
    have h2 : (0 + c - 1) / c = 0 := Nat.div_eq_of_lt (by omega)
    have h3 : (m + c - 1) / c = 1 := by
      apply Nat.div_eq_of_lt_le
      · omega
      · omega
    omega
  · rw [Nat.min_eq_right h]
    have h4 : m - c + c - 1 = m - 1 := by omega
    have h5 : m + c - 1 = m - 1 + c := by omega
    rw [h4, h5, Nat.add_div_right _ hc]

theorem writeLoop_cases (st : State) (c : Nat) (buf : List Nat) (addr i j f : Nat)
    (hi : i < buf.length) :
    (writeLoop st c buf addr i j (f + 1)).1 ≠ 0 ∨
    writeLoop st c buf addr i j (f + 1) =
      ((writeLoop (ec_check_features st EC_FEATURE_EXEC_IN_RAM).2.1 c buf addr
          (i + min (buf.length - i) c) (j + 1) f).1,
       (writeLoop (ec_check_features st EC_FEATURE_EXEC_IN_RAM).2.1 c buf addr
          (i + min (buf.length - i) c) (j + 1) f).2.1,
       ((ec_check_features st EC_FEATURE_EXEC_IN_RAM).2.2 ++
          [Call.flashWrite ((addr + i) % U32)
            ((buf.drop i).take (min (buf.length - i) c))]) ++
         (writeLoop (ec_check_features st EC_FEATURE_EXEC_IN_RAM).2.1 c buf addr
            (i + min (buf.length - i) c) (j + 1) f).2.2) := by
  simp only [writeLoop]
  rw [if_pos hi]
  split
  · left
    intro hh
    simp [SPI_ACCESS_DENIED] at hh
  · split
    · left
      intro hh
      simp [SPI_ACCESS_DENIED] at hh
    · split
      · next h =>
        left
        intro hh
        simp at hh
        omega
      · right
        rfl

theorem writeLoop_ok (c : Nat) (hc : 0 < c) (buf : List Nat) (addr : Nat) :
    ∀ (fuel : Nat) (st : State) (i j : Nat), buf.length - i ≤ fuel →
      (writeLoop st c buf addr i j fuel).1 = 0 →
      ((writePayloads (writeLoop st c buf addr i j fuel).2.2).flatten = buf.drop i ∧
       (writePayloads (writeLoop st c buf addr i j fuel).2.2).length =
         (buf.length - i + c - 1) / c ∧
       (∀ p ∈ writePayloads (writeLoop st c buf addr i j fuel).2.2, p.length ≤ c)) := by
  intro fuel
  induction fuel with
  | zero =>
    intro st i j hle _
    have hge : buf.length ≤ i := by omega
    have hred : writeLoop st c buf addr i j 0 = (0, st, []) := rfl
    rw [hred]
    refine ⟨?_, ?_, ?_⟩
    · simp [writePayloads, List.drop_eq_nil_of_le hge]
    · simp only [writePayloads, List.length_nil]
      rw [show buf.length - i = 0 by omega]
      exact (Nat.div_eq_of_lt (by omega)).symm
    · simp [writePayloads]
  | succ f ih =>
    intro st i j hle h0
    by_cases hi : i < buf.length
    · rcases writeLoop_cases st c buf addr i j f hi with hbad | hE
      · exact absurd h0 hbad
      · have hw1 : 1 ≤ min (buf.length - i) c := by omega
        have h0' : (writeLoop (ec_check_features st EC_FEATURE_EXEC_IN_RAM).2.1 c buf addr
            (i + min (buf.length - i) c) (j + 1) f).1 = 0 := by
          rw [hE] at h0
          exact h0
        obtain ⟨ihj, ihc, ihl⟩ := ih (ec_check_features st EC_FEATURE_EXEC_IN_RAM).2.1
          (i + min (buf.length - i) c) (j + 1) (by omega) h0'
        have htr : (writeLoop st c buf addr i j (f + 1)).2.2 =
            (ec_check_features st EC_FEATURE_EXEC_IN_RAM).2.2 ++
              [Call.flashWrite ((addr + i) % U32)
                ((buf.drop i).take (min (buf.length - i) c))] ++
              (writeLoop (ec_check_features st EC_FEATURE_EXEC_IN_RAM).2.1 c buf addr
                (i + min (buf.length - i) c) (j + 1) f).2.2 := by
          rw [hE]
        have hpl : writePayloads (writeLoop st c buf addr i j (f + 1)).2.2 =
            (buf.drop i).take (min (buf.length - i) c) ::
              writePayloads (writeLoop (ec_check_features st EC_FEATURE_EXEC_IN_RAM).2.1 c
                buf addr (i + min (buf.length - i) c) (j + 1) f).2.2 := by
          rw [htr, writePayloads_append, writePayloads_append, writePayloads_features]
          rfl
        refine ⟨?_, ?_, ?_⟩
        · rw [hpl, List.flatten_cons, ihj]
          have hdd : buf.drop (i + min (buf.length - i) c) =
              (buf.drop i).drop (min (buf.length - i) c) := by
            rw [List.drop_drop, Nat.add_comm]
          rw [hdd, List.take_append_drop]
        · rw [hpl, List.length_cons, ihc]
          have e1 : buf.length - (i + min (buf.length - i) c) =
              (buf.length - i) - min (buf.length - i) c := by omega
          rw [e1, ceil_div_step (buf.length - i) c (by omega) hc]
        · rw [hpl]
          intro p hp
          rcases List.mem_cons.mp hp with rfl | hp
          · exact le_trans (List.length_take_le _ _) (Nat.min_le_right _ _)
          · exact ihl p hp
    · have hge : buf.length ≤ i := by omega
      have hred : writeLoop st c buf addr i j (f + 1) = (0, st, []) := by
        simp only [writeLoop]
        rw [if_neg hi]
      rw [hred]
      refine ⟨?_, ?_, ?_⟩
      · simp [writePayloads, List.drop_eq_nil_of_le hge]
      · simp only [writePayloads, List.length_nil]
        rw [show buf.length - i = 0 by omega]
        exact (Nat.div_eq_of_lt (by omega)).symm
      · simp [writePayloads]

/-- Claim C5.  For any buffer and chunk size c = min(max write size - header,
ideal write size) > 0, when cros_ec_write returns success (no chunk denied,
no transport error), it issued ceil(len/c) FLASH_WRITE transport calls, each
carrying at most c payload bytes, and the concatenation of the transmitted
chunk payloads equals the original buffer. -/
theorem claim_C5 (st : State) (maxw : Nat) (buf : List Nat) (addr : Nat)
    (hc : chunkSize maxw st.priv.ideal_write_size ≠ 0)
    (r : Int × State × List Call)
    (hr : cros_ec_write st maxw buf addr = some r) (h0 : r.1 = 0) :
    (writePayloads r.2.2).length =
      (buf.length + chunkSize maxw st.priv.ideal_write_size - 1) /
        chunkSize maxw st.priv.ideal_write_size ∧
    (∀ p ∈ writePayloads r.2.2, p.length ≤ chunkSize maxw st.priv.ideal_write_size) ∧
    (writePayloads r.2.2).flatten = buf := by
  unfold cros_ec_write at hr
  rw [if_neg hc] at hr
  injection hr with hr
  subst hr
  obtain ⟨hj, hcnt, hlen⟩ := writeLoop_ok (chunkSize maxw st.priv.ideal_write_size)
    (Nat.pos_of_ne_zero hc) buf addr buf.length st 0 0 (by omega) h0
  refine ⟨?_, hlen, ?_⟩
  · rw [hcnt, Nat.sub_zero]
  · rw [hj, List.drop_zero]

/-- Witness for claim C5: a 20-byte buffer with chunk size 8 yields three
chunks, each of at most 8 bytes, whose concatenation is the buffer. -/
theorem claim_C5_witness :
    chunkSize 16 stC5w.priv.ideal_write_size ≠ 0 ∧
    ((writePayloads (writeLoop stC5w (chunkSize 16 stC5w.priv.ideal_write_size)
        (List.replicate 20 7) 0 0 0 (List.replicate 20 7 : List Nat).length).2.2).length =
      ((List.replicate 20 7 : List Nat).length +
        chunkSize 16 stC5w.priv.ideal_write_size - 1) /
        chunkSize 16 stC5w.priv.ideal_write_size ∧
     (∀ p ∈ writePayloads (writeLoop stC5w (chunkSize 16 stC5w.priv.ideal_write_size)
        (List.replicate 20 7) 0 0 0 (List.replicate 20 7 : List Nat).length).2.2,
        p.length ≤ chunkSize 16 stC5w.priv.ideal_write_size) ∧
     (writePayloads (writeLoop stC5w (chunkSize 16 stC5w.priv.ideal_write_size)
        (List.replicate 20 7) 0 0 0 (List.replicate 20 7 : List Nat).length).2.2).flatten =
       List.replicate 20 7) :=
  ⟨by decide, claim_C5 stC5w 16 (List.replicate 20 7) 0 (by decide) _ rfl (by decide)⟩

/-! Erase-version selection and async polling (claims C7, C8). -/

theorem topBitAux_eq (mask v : Nat) (hbit : mask.testBit v = true) :
    ∀ k, v ≤ k → (∀ t, v < t → t ≤ k → mask.testBit t = false) →
      topBitAux mask k = Int.ofNat v := by
  intro k
  induction k with
  | zero =>
    intro h1 _
    have hv : v = 0 := by omega
    subst hv
    simp [topBitAux, hbit]
  | succ n ih =>
    intro h1 h2
    by_cases hv : v = n + 1
    · subst hv
      simp [topBitAux, hbit]
    · have hfb : mask.testBit (n + 1) = false := h2 (n + 1) (by omega) (by omega)
      simp only [topBitAux]
      rw [if_neg (by simp [hfb])]
      exact ih (by omega) (fun t ht1 ht2 => h2 t ht1 (by omega))

theorem testBit_true_of_bounds (mask v : Nat) (h1 : 2 ^ v ≤ mask)
    (h2 : mask < 2 ^ (v + 1)) : mask.testBit v = true := by
  have hpow : 2 ^ (v + 1) = 2 * 2 ^ v := by ring
  have hdiv : mask / 2 ^ v = 1 := by
    apply Nat.div_eq_of_lt_le
    · simpa using h1
    · omega
  rw [Nat.testBit_to_div_mod, hdiv]
  rfl

theorem testBit_false_of_lt (mask t : Nat) (h : mask < 2 ^ t) :
    mask.testBit t = false := by
  rw [Nat.testBit_to_div_mod, Nat.div_eq_of_lt h]
  rfl

theorem highestBit_eq (mask v : Nat) (h1 : 2 ^ v ≤ mask) (h2 : mask < 2 ^ (v + 1))
    (hv : v ≤ 31) : highestBit mask = Int.ofNat v := by
  unfold highestBit
  refine topBitAux_eq mask v (testBit_true_of_bounds mask v h1 h2) 31 hv ?_
  intro t ht1 _
  refine testBit_false_of_lt mask t (lt_of_lt_of_le h2 ?_)
  exact Nat.pow_le_pow_right (by omega) (by omega)

theorem block_erase_versioned_call (st : State) (blockaddr len : Nat)
    (hf : 0 < (ec_check_features st EC_FEATURE_EXEC_IN_RAM).1)
    (hvrc : 0 ≤ st.chan.cmdVersionsRc EC_CMD_FLASH_ERASE)
    (hver : highestBit (st.chan.cmdVersionsMask EC_CMD_FLASH_ERASE) ≠ 0) :
    Call.flashErase (highestBit (st.chan.cmdVersionsMask EC_CMD_FLASH_ERASE))
      (some (if FLASH_SMALL_REGION_THRESHOLD ≤ len then FLASH_ERASE_SECTOR_ASYNC
             else FLASH_ERASE_SECTOR)) blockaddr len
      ∈ (cros_ec_block_erase st blockaddr len).2.2 := by
  have hch := (ec_check_features_frame st EC_FEATURE_EXEC_IN_RAM).1
  have hguard : ¬((ec_check_features st EC_FEATURE_EXEC_IN_RAM).1 ≤ 0 ∧
      in_current_image (ec_check_features st EC_FEATURE_EXEC_IN_RAM).2.1 blockaddr len
        = true) := by
    intro h
    omega
  have h1 : ¬(st.chan.cmdVersionsRc EC_CMD_FLASH_ERASE < 0) := by omega
  simp only [cros_ec_block_erase, ec_get_cmd_versions, hch]
  rw [if_neg hguard, if_neg h1]
  simp only [if_neg hver]
  split
  · omega
  · repeat' split
    all_goals simp [List.mem_append]

/-- Claim C7.  The erase engine selects the erase-command version as the
index v of the highest set bit of the capability-query version bitmask
(2^v ≤ mask < 2^(v+1)); for any selected version ≥ 1 it submits the erase
with that version, using the asynchronous sub-command exactly when the
region length reaches the 16 KiB threshold and the synchronous one below
it. -/
theorem claim_C7 (st : State) (blockaddr len v : Nat)
    (hf : 0 < (ec_check_features st EC_FEATURE_EXEC_IN_RAM).1)
    (hvrc : 0 ≤ st.chan.cmdVersionsRc EC_CMD_FLASH_ERASE)
    (hlo : 2 ^ v ≤ st.chan.cmdVersionsMask EC_CMD_FLASH_ERASE)
    (hhi : st.chan.cmdVersionsMask EC_CMD_FLASH_ERASE < 2 ^ (v + 1))
    (hv1 : 1 ≤ v) (hv31 : v ≤ 31) :
    Call.flashErase (Int.ofNat v)
      (some (if FLASH_SMALL_REGION_THRESHOLD ≤ len then FLASH_ERASE_SECTOR_ASYNC
             else FLASH_ERASE_SECTOR)) blockaddr len
      ∈ (cros_ec_block_erase st blockaddr len).2.2 := by
  have hhb := highestBit_eq (st.chan.cmdVersionsMask EC_CMD_FLASH_ERASE) v hlo hhi hv31
  have hv0 : highestBit (st.chan.cmdVersionsMask EC_CMD_FLASH_ERASE) ≠ 0 := by
    rw [hhb]
    simp
    omega
  have hmem := block_erase_versioned_call st blockaddr len hf hvrc hv0
  rw [hhb] at hmem
  exact hmem

/-- Witness for claim C7: version bitmask 0b0010 selects version 1, and a
64 KiB region selects the asynchronous submit. -/
theorem claim_C7_witness :
    Call.flashErase 1 (some FLASH_ERASE_SECTOR_ASYNC) 0 65536
      ∈ (cros_ec_block_erase stC8w 0 65536).2.2 :=
  claim_C7 stC8w 0 65536 1 (by decide) (by decide) (by decide) (by decide) (by decide)
    (by decide)

theorem end_flash_erase_nonneg (rc : Int) (h : 0 ≤ rc) : end_flash_erase rc = 0 := by
  unfold end_flash_erase
  split
  · rfl
  · omega

theorem block_erase_async_eval (st : State) (blockaddr len : Nat)
    (hf : 0 < (ec_check_features st EC_FEATURE_EXEC_IN_RAM).1)
    (hvrc : 0 ≤ st.chan.cmdVersionsRc EC_CMD_FLASH_ERASE)
    (hver : highestBit (st.chan.cmdVersionsMask EC_CMD_FLASH_ERASE) ≠ 0)
    (hlen : FLASH_SMALL_REGION_THRESHOLD ≤ len)
    (herc : st.chan.eraseRc = 0) :
    cros_ec_block_erase st blockaddr len =
      (if (erasePoll st.chan 0 20 (-EC_RES_BUSY)).1 < 0 then
        ((erasePoll st.chan 0 20 (-EC_RES_BUSY)).1,
         (ec_check_features st EC_FEATURE_EXEC_IN_RAM).2.1,
         (ec_check_features st EC_FEATURE_EXEC_IN_RAM).2.2 ++
            [Call.getCmdVersions EC_CMD_FLASH_ERASE] ++
            [Call.flashErase (highestBit (st.chan.cmdVersionsMask EC_CMD_FLASH_ERASE))
              (some FLASH_ERASE_SECTOR_ASYNC) blockaddr len] ++
           List.replicate (erasePoll st.chan 0 20 (-EC_RES_BUSY)).2
             (Call.flashErase (highestBit (st.chan.cmdVersionsMask EC_CMD_FLASH_ERASE))
               (some FLASH_ERASE_GET_RESULT) blockaddr len))
      else
        (end_flash_erase (erasePoll st.chan 0 20 (-EC_RES_BUSY)).1,
         (ec_check_features st EC_FEATURE_EXEC_IN_RAM).2.1,
         (ec_check_features st EC_FEATURE_EXEC_IN_RAM).2.2 ++
            [Call.getCmdVersions EC_CMD_FLASH_ERASE] ++
            [Call.flashErase (highestBit (st.chan.cmdVersionsMask EC_CMD_FLASH_ERASE))
              (some FLASH_ERASE_SECTOR_ASYNC) blockaddr len] ++
           List.replicate (erasePoll st.chan 0 20 (-EC_RES_BUSY)).2
             (Call.flashErase (highestBit (st.chan.cmdVersionsMask EC_CMD_FLASH_ERASE))
               (some FLASH_ERASE_GET_RESULT) blockaddr len))) := by
  have hch := (ec_check_features_frame st EC_FEATURE_EXEC_IN_RAM).1
  have hguard : ¬((ec_check_features st EC_FEATURE_EXEC_IN_RAM).1 ≤ 0 ∧
      in_current_image (ec_check_features st EC_FEATURE_EXEC_IN_RAM).2.1 blockaddr len
        = true) := by
    intro h
    omega
  have h1 : ¬(st.chan.cmdVersionsRc EC_CMD_FLASH_ERASE < 0) := by omega
  have h2 : ¬(len < FLASH_SMALL_REGION_THRESHOLD) := by omega
  simp only [cros_ec_block_erase, ec_get_cmd_versions, hch]
  rw [if_neg hguard, if_neg h1]
  simp [hver, herc, h1, h2, hlen, EC_RES_ACCESS_DENIED]

theorem pollCount_append (xs ys : List Call) :
    pollCount (xs ++ ys) = pollCount xs + pollCount ys := by
  simp [pollCount, List.filter_append]

theorem pollCount_replicate (n : Nat) (c : Call) (h : isPollCall c = true) :
    pollCount (List.replicate n c) = n := by
  induction n with
  | zero => rfl
  | succ m ih =>
    rw [List.replicate_succ]
    simp only [pollCount, List.filter_cons, h, if_true, List.length_cons] at ih ⊢
    omega

theorem pollCount_gcv (c : Nat) : pollCount [Call.getCmdVersions c] = 0 := rfl

theorem pollCount_async (v : Int) (o l : Nat) :
    pollCount [Call.flashErase v (some FLASH_ERASE_SECTOR_ASYNC) o l] = 0 := rfl

theorem isPollCall_getResult (v : Int) (o l : Nat) :
    isPollCall (Call.flashErase v (some FLASH_ERASE_GET_RESULT) o l) = true := rfl

theorem pollCount_features (st : State) (f : Nat) :
    pollCount (ec_check_features st f).2.2 = 0 := by
  unfold ec_check_features
  repeat' split
  all_goals rfl

theorem erasePoll_stop (ch : Chan) (fuel j : Nat) (rc : Int) (h : 0 ≤ rc) :
    erasePoll ch j fuel rc = (rc, 0) := by
  cases fuel with
  | zero => rfl
  | succ f => simp [erasePoll, show ¬(rc < 0) by omega]

theorem erasePoll_busy (ch : Chan) (m : Nat) :
    ∀ (j fuel : Nat) (rc : Int), rc < 0 → m < fuel →
      (∀ t, t < m → ch.eraseGetResultRc (j + t) < 0) →
      0 ≤ ch.eraseGetResultRc (j + m) →
      erasePoll ch j fuel rc = (ch.eraseGetResultRc (j + m), m + 1) := by
  induction m with
  | zero =>
    intro j fuel rc hrc hfu _ hok
    obtain ⟨f, rfl⟩ : ∃ f, fuel = f + 1 := ⟨fuel - 1, by omega⟩
    simp only [erasePoll]
    rw [if_pos hrc, erasePoll_stop ch f (j + 1) _ (by simpa using hok)]
    simp
  | succ m ih =>
    intro j fuel rc hrc hfu hbusy hok
    obtain ⟨f, rfl⟩ : ∃ f, fuel = f + 1 := ⟨fuel - 1, by omega⟩
    simp only [erasePoll]
    have h0 : ch.eraseGetResultRc j < 0 := by simpa using hbusy 0 (by omega)
    rw [if_pos hrc, ih (j + 1) f _ h0 (by omega) ?busy ?ok]
    case busy =>
      intro t ht
      have e : j + 1 + t = j + (t + 1) := by omega
      rw [e]
      exact hbusy (t + 1) (by omega)
    case ok =>
      have e : j + 1 + m = j + (m + 1) := by omega
      rw [e]
      exact hok
    have e : j + 1 + m = j + (m + 1) := by omega
    rw [e]

theorem erasePoll_never (ch : Chan) :
    ∀ (fuel j : Nat) (rc : Int), rc < 0 → 0 < fuel →
      (∀ t, t < j + fuel → ch.eraseGetResultRc t < 0) →
      erasePoll ch j fuel rc = (ch.eraseGetResultRc (j + fuel - 1), fuel) := by
  intro fuel
  induction fuel with
  | zero =>
    intro j rc _ h _
    exact absurd h (lt_irrefl 0)
  | succ f ih =>
    intro j rc hrc _ hall
    simp only [erasePoll]
    rw [if_pos hrc]
    by_cases hf0 : f = 0
    · subst hf0
      simp [erasePoll]
    · rw [ih (j + 1) _ (hall j (by omega)) (by omega) (fun t ht => hall t (by omega))]
      have e : j + 1 + f - 1 = j + (f + 1) - 1 := by omega
      simp [e]

/-- Claim C8.  On the asynchronous erase path (version ≥ 1, region at least
16 KiB, submit accepted): if the device reports busy for exactly k < 20
polls and then completes, the engine issues exactly k+1 get-result transport
calls and returns success; if the device never completes, the engine stops
after exactly 20 polls (0.5 s apart over the fixed 10 s budget) and returns
the final negative status — no more and no fewer polls. -/
theorem claim_C8 (st : State) (blockaddr len : Nat)
    (hf : 0 < (ec_check_features st EC_FEATURE_EXEC_IN_RAM).1)
    (hvrc : 0 ≤ st.chan.cmdVersionsRc EC_CMD_FLASH_ERASE)
    (hver : highestBit (st.chan.cmdVersionsMask EC_CMD_FLASH_ERASE) ≠ 0)
    (hlen : FLASH_SMALL_REGION_THRESHOLD ≤ len)
    (herc : st.chan.eraseRc = 0) :
    (∀ k, k < 20 → (∀ t, t < k → st.chan.eraseGetResultRc t < 0) →
      0 ≤ st.chan.eraseGetResultRc k →
      (cros_ec_block_erase st blockaddr len).1 = 0 ∧
      pollCount (cros_ec_block_erase st blockaddr len).2.2 = k + 1) ∧
    ((∀ t, t < 20 → st.chan.eraseGetResultRc t < 0) →
      (cros_ec_block_erase st blockaddr len).1 = st.chan.eraseGetResultRc 19 ∧
      (cros_ec_block_erase st blockaddr len).1 < 0 ∧
      pollCount (cros_ec_block_erase st blockaddr len).2.2 = 20) := by
  have hEq := block_erase_async_eval st blockaddr len hf hvrc hver hlen herc
  constructor
  · intro k hk hbusy hok
    have hpoll : erasePoll st.chan 0 20 (-EC_RES_BUSY) =
        (st.chan.eraseGetResultRc k, k + 1) := by
      have := erasePoll_busy st.chan k 0 20 (-EC_RES_BUSY) (by decide) hk
        (fun t ht => by simpa using hbusy t ht) (by simpa using hok)
      simpa using this
    rw [hEq, hpoll]
    rw [if_neg (by simpa using not_lt.mpr hok)]
    refine ⟨end_flash_erase_nonneg _ (by simpa using hok), ?_⟩
    rw [pollCount_append, pollCount_append, pollCount_append, pollCount_features,
      pollCount_gcv, pollCount_async, pollCount_replicate _ _ (isPollCall_getResult _ _ _)]
    simp
  · intro hall
    have hpoll : erasePoll st.chan 0 20 (-EC_RES_BUSY) =
        (st.chan.eraseGetResultRc 19, 20) := by
      have := erasePoll_never st.chan 20 0 (-EC_RES_BUSY) (by decide) (by omega)
        (fun t ht => hall t (by omega))
      simpa using this
    have h19 : st.chan.eraseGetResultRc 19 < 0 := hall 19 (by omega)
    rw [hEq, hpoll]
    rw [if_pos (by simpa using h19)]
    refine ⟨rfl, h19, ?_⟩
    rw [pollCount_append, pollCount_append, pollCount_append, pollCount_features,
      pollCount_gcv, pollCount_async, pollCount_replicate _ _ (isPollCall_getResult _ _ _)]
    simp

/-- Witness for claim C8: a device busy for exactly 3 polls completes with 4
get-result calls and success; a device that never completes gets exactly 20
polls and the final busy status back. -/
theorem claim_C8_witness :
    ((cros_ec_block_erase stC8w 0 65536).1 = 0 ∧
     pollCount (cros_ec_block_erase stC8w 0 65536).2.2 = 4) ∧
    ((cros_ec_block_erase stC8x 0 65536).1 = stC8x.chan.eraseGetResultRc 19 ∧
     (cros_ec_block_erase stC8x 0 65536).1 < 0 ∧
     pollCount (cros_ec_block_erase stC8x 0 65536).2.2 = 20) := by
  constructor
  · exact (claim_C8 stC8w 0 65536 (by decide) (by decide) (by decide) (by decide)
      (by decide)).1 3 (by decide)
      (fun t ht => by
        show (if t < 3 then (-16 : Int) else 0) < 0
        rw [if_pos ht]
        decide)
      (by decide)
  · exact (claim_C8 stC8x 0 65536 (by decide) (by decide) (by decide) (by decide)
      (by decide)).2
      (fun t _ => by
        show (-16 : Int) < 0
        decide)

/-! The pending-retry invariant (claim C3). -/

theorem erasePoll_result (ch : Chan) :
    ∀ (fuel j : Nat) (rc : Int), (erasePoll ch j fuel rc).1 = rc ∨
      ∃ t, (erasePoll ch j fuel rc).1 = ch.eraseGetResultRc t := by
  intro fuel
  induction fuel with
  | zero => intro j rc; exact Or.inl rfl
  | succ f ih =>
    intro j rc
    simp only [erasePoll]
    split
    · rcases ih (j + 1) (ch.eraseGetResultRc j) with h | ⟨t, h⟩
      · exact Or.inr ⟨j, h⟩
      · exact Or.inr ⟨t, h⟩
    · exact Or.inl rfl

theorem block_erase_need (st : State) (a l : Nat)
    (hb1 : st.chan.eraseRc ≠ SPI_ACCESS_DENIED)
    (hb2 : ∀ j, st.chan.eraseGetResultRc j ≠ SPI_ACCESS_DENIED) :
    ((cros_ec_block_erase st a l).1 = SPI_ACCESS_DENIED →
      (cros_ec_block_erase st a l).2.1.need_2nd_pass = 1) ∧
    ((cros_ec_block_erase st a l).1 ≠ SPI_ACCESS_DENIED →
      (cros_ec_block_erase st a l).2.1.need_2nd_pass = st.need_2nd_pass) := by
  have hch := (ec_check_features_frame st EC_FEATURE_EXEC_IN_RAM).1
  have hfrn := (ec_check_features_frame st EC_FEATURE_EXEC_IN_RAM).2.2.2.1
  simp only [cros_ec_block_erase, hch]
  split
  · exact ⟨fun _ => rfl, fun hne => absurd rfl hne⟩
  · split
    · exact ⟨fun h => absurd h (by decide : ¬((0 : Int) = SPI_ACCESS_DENIED)),
        fun _ => hfrn⟩
    · split
      · split
        · exact ⟨fun _ => rfl, fun hne => absurd rfl hne⟩
        · split
          · exact ⟨fun h => absurd h hb1, fun _ => hfrn⟩
          · next h4 h5 =>
            refine ⟨fun h => ?_, fun _ => hfrn⟩
            exfalso
            have h' : end_flash_erase st.chan.eraseRc = SPI_ACCESS_DENIED := h
            rw [end_flash_erase_nonneg _ (by omega)] at h'
            exact absurd h' (by decide)
      · split
        · exact ⟨fun _ => rfl, fun hne => absurd rfl hne⟩
        · split
          · exact ⟨fun h => absurd h hb1, fun _ => hfrn⟩
          · split
            · refine ⟨fun h => ?_, fun _ => hfrn⟩
              exfalso
              have h' : end_flash_erase 0 = SPI_ACCESS_DENIED := h
              exact absurd h' (by decide)
            · split
              · next hp =>
                refine ⟨fun h => ?_, fun _ => hfrn⟩
                exfalso
                have h' : (erasePoll st.chan 0 20 (-EC_RES_BUSY)).1 = SPI_ACCESS_DENIED := h
                rcases erasePoll_result st.chan 20 0 (-EC_RES_BUSY) with hr | ⟨t, hr⟩
                · rw [hr] at h'
                  exact absurd h' (by decide)
                · rw [hr] at h'
                  exact hb2 t h'
              · next hp =>
                refine ⟨fun h => ?_, fun _ => hfrn⟩
                exfalso
                have h' : end_flash_erase (erasePoll st.chan 0 20 (-EC_RES_BUSY)).1 =
                    SPI_ACCESS_DENIED := h
                rw [end_flash_erase_nonneg _ (by omega)] at h'
                exact absurd h' (by decide)

theorem writeLoop_need (c : Nat) (buf : List Nat) (addr : Nat) :
    ∀ (fuel : Nat) (st : State) (i j : Nat),
      (∀ t, st.chan.writeRc t ≠ SPI_ACCESS_DENIED) →
      (((writeLoop st c buf addr i j fuel).1 = SPI_ACCESS_DENIED →
        (writeLoop st c buf addr i j fuel).2.1.need_2nd_pass = 1) ∧
       ((writeLoop st c buf addr i j fuel).1 ≠ SPI_ACCESS_DENIED →
        (writeLoop st c buf addr i j fuel).2.1.need_2nd_pass = st.need_2nd_pass)) := by
  intro fuel
  induction fuel with
  | zero =>
    intro st i j _
    exact ⟨fun h => absurd h (by decide : ¬((0 : Int) = SPI_ACCESS_DENIED)), fun _ => rfl⟩
  | succ f ih =>
    intro st i j hw
    have hch := (ec_check_features_frame st EC_FEATURE_EXEC_IN_RAM).1
    have hfrn := (ec_check_features_frame st EC_FEATURE_EXEC_IN_RAM).2.2.2.1
    simp only [writeLoop, hch]
    split
    · split
      · exact ⟨fun _ => rfl, fun hne => absurd rfl hne⟩
      · split
        · exact ⟨fun _ => rfl, fun hne => absurd rfl hne⟩
        · split
          · exact ⟨fun h => absurd h (hw j), fun _ => hfrn⟩
          · obtain ⟨ihd, ihn⟩ := ih (ec_check_features st EC_FEATURE_EXEC_IN_RAM).2.1
              (i + min (buf.length - i) c) (j + 1)
              (fun t => by
                rw [(ec_check_features_frame st EC_FEATURE_EXEC_IN_RAM).1]
                exact hw t)
            exact ⟨fun h => ihd h, fun h => (ihn h).trans hfrn⟩
    · exact ⟨fun h => absurd h (by decide : ¬((0 : Int) = SPI_ACCESS_DENIED)), fun _ => rfl⟩

theorem runOp_need (st : State) (op : Op) (hb : benign st.chan) :
    ((runOp st op).2.need_2nd_pass ≠ 0 ↔
      (st.need_2nd_pass ≠ 0 ∨ isDenial st op = true)) ∧
    benign (runOp st op).2.chan := by
  obtain ⟨hb1, hb2, hb3⟩ := hb
  cases op with
  | erase a l =>
    obtain ⟨hd, hn⟩ := block_erase_need st a l hb1 hb2
    have e2 : (runOp st (Op.erase a l)).2 = (cros_ec_block_erase st a l).2.1 := rfl
    have ed : isDenial st (Op.erase a l) =
        ((cros_ec_block_erase st a l).1 == SPI_ACCESS_DENIED) := rfl
    refine ⟨?_, ?_⟩
    · rw [e2, ed]
      by_cases h : (cros_ec_block_erase st a l).1 = SPI_ACCESS_DENIED
      · rw [hd h]
        simp [h]
      · rw [hn h]
        simp [h]
    · rw [e2, block_erase_chan st a l]
      exact ⟨hb1, hb2, hb3⟩
  | write m b a =>
    by_cases hc : chunkSize m st.priv.ideal_write_size = 0
    · have ew : cros_ec_write st m b a = none := by
        unfold cros_ec_write
        rw [if_pos hc]
      have e : runOp st (Op.write m b a) = (-1, st) := by
        have h1 : runOp st (Op.write m b a) =
            (((cros_ec_write st m b a).getD (-1, st, [])).1,
             ((cros_ec_write st m b a).getD (-1, st, [])).2.1) := rfl
        rw [h1, ew]
        rfl
      have ed : isDenial st (Op.write m b a) =
          ((runOp st (Op.write m b a)).1 == SPI_ACCESS_DENIED) := rfl
      refine ⟨?_, ?_⟩
      · rw [ed, e]
        simp [SPI_ACCESS_DENIED]
      · rw [e]
        exact ⟨hb1, hb2, hb3⟩
    · have ew : cros_ec_write st m b a =
          some (writeLoop st (chunkSize m st.priv.ideal_write_size) b a 0 0 b.length) := by
        unfold cros_ec_write
        rw [if_neg hc]
      have e : runOp st (Op.write m b a) =
          ((writeLoop st (chunkSize m st.priv.ideal_write_size) b a 0 0 b.length).1,
           (writeLoop st (chunkSize m st.priv.ideal_write_size) b a 0 0 b.length).2.1) := by
        have h1 : runOp st (Op.write m b a) =
            (((cros_ec_write st m b a).getD (-1, st, [])).1,
             ((cros_ec_write st m b a).getD (-1, st, [])).2.1) := rfl
        rw [h1, ew]
        rfl
      have ed : isDenial st (Op.write m b a) =
          ((runOp st (Op.write m b a)).1 == SPI_ACCESS_DENIED) := rfl
      obtain ⟨hd, hn⟩ := writeLoop_need (chunkSize m st.priv.ideal_write_size) b a
        b.length st 0 0 hb3
      refine ⟨?_, ?_⟩
      · rw [ed, e]
        by_cases h : (writeLoop st (chunkSize m st.priv.ideal_write_size) b a 0 0
            b.length).1 = SPI_ACCESS_DENIED
        · rw [hd h]
          simp [h]
        · rw [hn h]
          simp [h]
      · rw [e]
        rw [show ((writeLoop st (chunkSize m st.priv.ideal_write_size) b a 0 0 b.length).1,
            (writeLoop st (chunkSize m st.priv.ideal_write_size) b a 0 0
              b.length).2.1).2.chan = st.chan from
          writeLoop_chan (chunkSize m st.priv.ideal_write_size) b a b.length st 0 0]
        exact ⟨hb1, hb2, hb3⟩
  | jump t =>
    have e2 : (runOp st (Op.jump t)).2 = (cros_ec_jump_copy st t).2.1 := rfl
    have jf := jump_frame st t
    refine ⟨?_, ?_, ?_, ?_⟩
    · rw [e2, jf.2.1]
      simp [isDenial]
    · rw [e2, jf.2.2.2.2.1]
      exact hb1
    · intro j
      rw [e2, jf.2.2.2.2.2.1]
      exact hb2 j
    · intro j
      rw [e2, jf.2.2.2.2.2.2]
      exact hb3 j

/-- Claim C3 (amended).  With a channel whose raw statuses never collide
with the Denied encoding, need_2nd_pass is nonzero after a sequence of
erase/write/jump calls exactly when it was already set or at least one
erase/write call of the sequence returned Denied: the flag is raised on
every denial and never cleared — in particular a successful jump does not
reset it. -/
theorem claim_C3_amended (ops : List Op) : ∀ (st : State), benign st.chan →
    ((runOps st ops).need_2nd_pass ≠ 0 ↔
      (st.need_2nd_pass ≠ 0 ∨ anyDenied st ops = true)) := by
  induction ops with
  | nil =>
    intro st _
    simp [runOps, anyDenied]
  | cons op rest ih =>
    intro st hb
    obtain ⟨h1, h2⟩ := runOp_need st op hb
    have e : runOps st (op :: rest) = runOps (runOp st op).2 rest := rfl
    have ea : anyDenied st (op :: rest) =
        (isDenial st op || anyDenied (runOp st op).2 rest) := rfl
    rw [e, ea, ih _ h2, h1]
    cases hd : isDenial st op <;> simp [hd]

/-- Claim C3 counterexample.  Starting from a clear retry flag: an erase
overlapping the executing RW copy is denied (raising the flag), the jump to
the newest copy succeeds, and the retried erase then succeeds — so no
erase/write since the last successful jump returned Denied — yet
need_2nd_pass is still 1: the flag is never cleared, contradicting the
claimed if-and-only-if. -/
theorem claim_C3_cex :
    stC3x.need_2nd_pass = 0 ∧
    deniedSinceLastJump stC3x false opsC3x = false ∧
    (runOps stC3x opsC3x).need_2nd_pass = 1 := by
  decide

/-- Witness for claim C3 (amended) at the concrete denied-then-jump-then-ok
sequence. -/
theorem claim_C3_witness :
    (runOps stC3x opsC3x).need_2nd_pass ≠ 0 ↔
      (stC3x.need_2nd_pass ≠ 0 ∨ anyDenied stC3x opsC3x = true) :=
  claim_C3_amended opsC3x stC3x
    ⟨by decide, fun _ => (by decide : ((0 : Int)) ≠ SPI_ACCESS_DENIED),
      fun _ => (by decide : ((0 : Int)) ≠ SPI_ACCESS_DENIED)⟩

end CrosEc
